import Mathlib

/-!
Verification of the CPU-usage transformation pipeline (`pmpstat.py`).

The pipeline stages are modelled as pure functions on `List Row` where a
`Row` is the list of CSV fields of one record.  File contents are modelled
as the row list held at the output path; since every stage rewrites the
same path in place, the driver `runPipeline` threads that content through
the stages and records what is left at the path when a stage fails
(`sys.exit(1)` in the source).

Python built-ins used by the source (`str.split`, `str.strip`,
`datetime.strptime` with the `%H:%M:%S` format, `int(...)`, stable
`sorted`, `csv` round-tripping) are modelled on character lists.  CSV
serialisation followed by parsing is the identity on fields, so stages
pass rows directly.  `csv.DictReader` / `csv.DictWriter` behaviour in
`sort_cpu_data` (missing fields read as `None` and written back as empty
strings, extra fields collected under the rest key, a row with fields
beyond the writer fieldnames raising `ValueError` mid-write) is modelled
explicitly in `sortWrite`.
-/

deriving instance DecidableEq for Except

namespace CpuUsage

abbrev Row := List String

/-- The fixed 12-column header written by `convert_to_csv`. -/
def headerRow : Row :=
  ["time", "CPU", "%usr", "%nice", "%sys", "%iowait", "%irq", "%soft",
   "%steal", "%guest", "%gnice", "%idle"]

/-- The series-identifier field of a row (`row[1]`, empty when absent). -/
def cpuD (r : Row) : String := r[1]?.getD ""

/-- The time field of a row (`row[0]`, empty when absent). -/
def timeD (r : Row) : String := r[0]?.getD ""

/-- ASCII whitespace as recognised by Python `str.split` / `str.strip`. -/
def isPySpace (c : Char) : Bool :=
  c == ' ' || c == Char.ofNat 9 || c == Char.ofNat 10 || c == Char.ofNat 11 ||
  c == Char.ofNat 12 || c == Char.ofNat 13

/-- Accumulator-based tokenizer: Python `str.split()` with no argument
splits on runs of whitespace and returns no empty tokens. -/
def tokensAux (cur : List Char) : List Char → List String
  | [] => if cur = [] then [] else [String.mk cur.reverse]
  | c :: cs =>
    if isPySpace c then
      if cur = [] then tokensAux [] cs else String.mk cur.reverse :: tokensAux [] cs
    else tokensAux (c :: cur) cs

/-- Python `line.split()`. -/
def pysplit (s : String) : List String := tokensAux [] s.data

/-- Python `str.strip()` on the character list. -/
def trimChars (l : List Char) : List Char :=
  ((l.dropWhile isPySpace).reverse.dropWhile isPySpace).reverse

/-- Python `s.strip()`. -/
def pytrim (s : String) : String := String.mk (trimChars s.data)

/-- Does the (already stripped) line start with the literal `CPU`? -/
def startsWithCPU : List Char → Bool
  | 'C' :: 'P' :: 'U' :: _ => true
  | _ => false

/-- Python `line[0].isdigit()` on a non-empty string; `false` on empty. -/
def firstIsDigit (s : String) : Bool :=
  match s.data with
  | [] => false
  | c :: _ => c.isDigit

/-- The loop body of `convert_to_csv`: walk the raw lines carrying the
`current_time` state, emit one row per qualifying line.  A line qualifies
when, after stripping, it is non-empty, does not start with `CPU`, and its
first character is a digit; the row is `[current_time] + parts[1:]`. -/
def convertLines : Option String → List String → List Row
  | _, [] => []
  | ct, raw :: rest =>
    let line := pytrim raw
    if line.data = [] || startsWithCPU line.data then convertLines ct rest
    else if firstIsDigit line then
      let parts := pysplit line
      let tim := parts.headD ""
      let ct2 := if ct = some tim then ct else some tim
      (ct2.getD "" :: parts.drop 1) :: convertLines ct2 rest
    else convertLines ct rest

/-- `convert_to_csv`: header row followed by one row per qualifying line. -/
def convert_to_csv (lines : List String) : List Row :=
  headerRow :: convertLines none lines

/-- The predicate deciding whether a raw line yields a data row in
`convert_to_csv` (non-empty after stripping, not a header line, first
character a digit). -/
def qualifies (raw : String) : Bool :=
  let line := pytrim raw
  !(line.data = [] || startsWithCPU line.data) && firstIsDigit line

/-- Number of qualifying data lines in the raw input. -/
def qualifyingCount (lines : List String) : Nat :=
  (lines.filter qualifies).length

/-- The removal test of `remove_cpu_rows`: the second field strips to
`CPU` while the first does not strip to `time` (rows of length at most one
are never removed). -/
def spurious (line : Row) : Bool :=
  decide (1 < line.length) && (pytrim (cpuD line) == "CPU") &&
    !(pytrim (timeD line) == "time")

/-- `remove_cpu_rows`: drop the spurious in-stream header repeats. -/
def remove_cpu_rows (rows : List Row) : List Row :=
  rows.filter (fun l => !spurious l)

/-- Value of a list of decimal digits. -/
def digitsVal (l : List Char) : Nat :=
  l.foldl (fun a c => a * 10 + (c.toNat - 48)) 0

/-- Non-empty and all decimal digits. -/
def allDigits (l : List Char) : Bool :=
  !(l = []) && l.all Char.isDigit

/-- Python `int(...)` on the stripped character list: optional sign then
decimal digits. -/
def pyintDigits : List Char → Option Int
  | [] => none
  | c :: rest =>
    if c = '-' then
      if allDigits rest then some (-(digitsVal rest : Int)) else none
    else if c = '+' then
      if allDigits rest then some ((digitsVal rest : Int)) else none
    else if allDigits (c :: rest) then some ((digitsVal (c :: rest) : Int)) else none

/-- Python `int(s)` for a decimal string (leading and trailing whitespace
stripped, optional sign); `none` when `int` raises `ValueError`. -/
def pyint? (s : String) : Option Int := pyintDigits (trimChars s.data)

/-- Split a character list at every occurrence of `sep`
(Python `str.split(sep)`). -/
def splitSepAux (sep : Char) (cur : List Char) : List Char → List (List Char)
  | [] => [cur.reverse]
  | c :: cs =>
    if c = sep then cur.reverse :: splitSepAux sep [] cs
    else splitSepAux sep (c :: cur) cs

/-- One `%H` / `%M` / `%S` field of `strptime`: one or two decimal digits. -/
def timeField (l : List Char) : Option Nat :=
  if allDigits l && decide (l.length ≤ 2) then some (digitsVal l) else none

/-- `datetime.strptime(s, str-of-H:M:S)` reduced to the second of the day:
exactly three colon-separated fields of one or two digits, hour at most
23, minute and second at most 59; `none` when `strptime` raises. -/
def parseTime (s : String) : Option Nat :=
  match splitSepAux ':' [] s.data with
  | [h, m, sec] =>
    match timeField h, timeField m, timeField sec with
    | some hv, some mv, some sv =>
      if hv ≤ 23 && mv ≤ 59 && sv ≤ 59 then some (hv * 3600 + mv * 60 + sv)
      else none
    | _, _, _ => none
  | _ => none

/-- `parseTime` with a junk default, used only where parsing is known to
succeed. -/
def parseTimeD (s : String) : Nat := (parseTime s).getD 0

/-- Pad a row with empty fields up to the header width: `DictReader`
maps missing fields to `None` and `DictWriter` writes them back as empty
strings. -/
def padTo (n : Nat) (r : Row) : Row := r ++ List.replicate (n - r.length) ""

/-- Python `str` of a list of strings, as written by `csv` for the rest
key value of an over-long row. -/
def pyReprList (l : List String) : String :=
  "[" ++ String.intercalate ", "
    (l.map (fun s => String.singleton (Char.ofNat 39) ++ s ++ String.singleton (Char.ofNat 39))) ++ "]"

/-- Row written by `DictWriter` when the fieldnames carry the rest key:
padded to the header width, then the rest-key column (Python repr of the
extra fields, or empty when there are none). -/
def cornerPad (n : Nat) (r : Row) : Row :=
  padTo n r ++ [if n < r.length then pyReprList (r.drop n) else ""]

/-- Sort key of `sort_cpu_data`: `int(row[CPU-column])`, defaulting after
the separate success check. -/
def rowKey (i : Nat) (r : Row) : Int := (r[i]?.bind pyint?).getD 0

/-- The write phase of `sort_cpu_data`: `DictWriter` with fieldnames taken
from the first sorted row.  Rows are padded to the header width; a row
with fields beyond the fieldnames raises `ValueError` after the earlier
rows were already written (the error payload is the partial file).  When
the first row itself is over-long the fieldnames include the rest key and
every row is written, extras rendered through Python list repr. -/
def writeRows (n : Nat) : List Row → Except (List Row) (List Row)
  | [] => .ok []
  | r :: rs =>
    if r.length ≤ n then
      match writeRows n rs with
      | .ok out => .ok (padTo n r :: out)
      | .error pre => .error (padTo n r :: pre)
    else .error []

/-- Header plus written rows, or the partial file on a mid-write error. -/
def sortWrite (hdr : Row) (rows : List Row) : Except (List Row) (List Row) :=
  match rows with
  | [] => .error []
  | r0 :: _ =>
    if hdr.length < r0.length then
      .ok ((hdr ++ [""]) :: rows.map (cornerPad hdr.length))
    else
      match writeRows hdr.length rows with
      | .ok out => .ok (hdr :: out)
      | .error pre => .error (hdr :: pre)

/-- `sort_cpu_data`: rows whose `CPU` field equals `all` first (original
order), then the remaining rows stably sorted by `int` of the `CPU`
field.  Failures, with the file content they leave behind:
no data rows at all (the output was already truncated: empty file),
`KeyError` on a missing `CPU` header field or `TypeError`/`ValueError`
from `int` (both before the output is opened: file unchanged), and the
mid-write `ValueError` of `sortWrite`. -/
def sortWithIdx (hdr : Row) (data0 : List Row) (i : Nat) : Except (List Row) (List Row) :=
  if ((data0.filter (fun r => !(r = []))).filter (fun r => !(r[i]? == some "all"))).all
      (fun r => (r[i]?.bind pyint?).isSome) then
    sortWrite hdr
      ((data0.filter (fun r => !(r = []))).filter (fun r => r[i]? == some "all") ++
        List.insertionSort (fun a b => rowKey i a ≤ rowKey i b)
          ((data0.filter (fun r => !(r = []))).filter (fun r => !(r[i]? == some "all"))))
  else .error (hdr :: data0)

def sort_cpu_data (rows : List Row) : Except (List Row) (List Row) :=
  match rows with
  | [] => .error []
  | hdr :: data0 =>
    if data0.filter (fun r => !(r = [])) = [] then .error []
    else
      match hdr.findIdx? (· == "CPU") with
      | none => .error (hdr :: data0)
      | some i => sortWithIdx hdr data0 i

/-- One series bucket of `process_file`: the first timestamp seen for the
series and its accumulated rows. -/
structure Group where
  start_time : Nat
  rows : List Row
deriving DecidableEq, Repr

/-- `str(int((t - start).total_seconds()))` for whole-second timestamps. -/
def elapsedStr (start t : Nat) : String := toString ((t : Int) - (start : Int))

/-- Insert one parsed row into the insertion-ordered bucket list (the
Python dict keyed by the `CPU` field). -/
def insertRow (cpu : String) (t : Nat) (row : Row) :
    List (String × Group) → List (String × Group)
  | [] => [(cpu, ⟨t, [elapsedStr t t :: row.drop 1]⟩)]
  | (c, gr) :: rest =>
    if c = cpu then
      (c, ⟨gr.start_time, gr.rows ++ [elapsedStr gr.start_time t :: row.drop 1]⟩) :: rest
    else (c, gr) :: insertRow cpu t row rest

/-- The grouping loop of `process_file`: `row[1]` is the series key,
`row[0]` must parse as a time of day, the time field is rewritten to the
elapsed seconds since the first row of the series.  A missing field
(`IndexError`) or unparsable timestamp (`ValueError`) is fatal. -/
def processRows : List Row → List (String × Group) → Except Unit (List (String × Group))
  | [], g => .ok g
  | row :: rest, g =>
    match row[1]?, row[0]? with
    | some cpu, some tstr =>
      match parseTime tstr with
      | some t => processRows rest (insertRow cpu t row g)
      | none => .error ()
    | _, _ => .error ()

/-- `process_file`: rename the first header column to `time`, group the
data rows by series, emit the buckets in dict insertion order. -/
def process_file (rows : List Row) : Except Unit (List Row) :=
  match rows with
  | [] => .error ()
  | hdr :: data =>
    match hdr with
    | [] => .error ()
    | _ :: hrest =>
      (processRows data []).map
        (fun g => ("time" :: hrest) :: g.flatMap (fun p => p.2.rows))

/-- Outcome of one pipeline run: the final exit status together with the
row list left at the output path. -/
inductive RunResult where
  | success : List Row → RunResult
  | failure : List Row → RunResult
deriving DecidableEq, Repr

/-- The `__main__` driver after the capture step: `convert_to_csv`,
`remove_cpu_rows`, `sort_cpu_data` and `process_file` all rewrite the one
output path in place.  On a `sort_cpu_data` failure the path holds that
stage's error payload; on a `process_file` failure it still holds the
sorter output (`process_file` fails before opening the output). -/
def runPipeline (lines : List String) : RunResult :=
  let r := remove_cpu_rows (convert_to_csv lines)
  match sort_cpu_data r with
  | .error f => .failure f
  | .ok s =>
    match process_file s with
    | .error _ => .failure s
    | .ok t => .success t

/-! Specification-side functions used to state the claims. -/

/-- The rows of one series, in order. -/
def seriesOf (data : List Row) (c : String) : List Row :=
  data.filter (fun r => cpuD r == c)

/-- Timestamp of the first row of a series. -/
def startTimeOf (data : List Row) (c : String) : Nat :=
  match seriesOf data c with
  | [] => 0
  | r :: _ => parseTimeD (timeD r)

/-- A data row after grouping: time field rewritten to elapsed seconds. -/
def rewriteRow (t0 : Nat) (r : Row) : Row :=
  toString ((parseTimeD (timeD r) : Int) - (t0 : Int)) :: r.drop 1

/-- Reference bucket for a series. -/
def refGroup (data : List Row) (c : String) : Group :=
  ⟨startTimeOf data c, (seriesOf data c).map (rewriteRow (startTimeOf data c))⟩

/-- First occurrences of the elements of a list, in order of first
appearance (Python dict key order). -/
def firstOccs : List String → List String
  | [] => []
  | x :: xs => x :: (firstOccs xs).filter (fun c => c ≠ x)

/-- Strict ascending order of series identifiers by integer value. -/
def keyLt (a b : String) : Prop :=
  ∃ va vb, pyint? a = some va ∧ pyint? b = some vb ∧ va < vb

instance (a b : String) : Decidable (keyLt a b) := by
  unfold keyLt
  cases ha : pyint? a with
  | none =>
    exact isFalse (by rintro ⟨va, vb, h1, h2, h3⟩; cases h1)
  | some va =>
    cases hb : pyint? b with
    | none =>
      exact isFalse (by rintro ⟨va2, vb2, h1, h2, h3⟩; cases h2)
    | some vb =>
      by_cases h : va < vb
      · exact isTrue ⟨va, vb, rfl, rfl, h⟩
      · refine isFalse ?_
        rintro ⟨va2, vb2, h1, h2, h3⟩
        injection h1 with e1
        injection h2 with e2
        exact h (e1 ▸ e2 ▸ h3)

/-- Number of spurious header-repeat rows dropped by the Normalizer. -/
def removedCount (lines : List String) : Nat :=
  ((convert_to_csv lines).filter spurious).length

/-- Parsed timestamps of one series, in order. -/
def seriesTimes (data : List Row) (c : String) : List Nat :=
  (seriesOf data c).map (fun r => parseTimeD (timeD r))

/-- Read a canonically rendered integer string back as an integer. -/
def readInt (s : String) : Option Int := pyintDigits s.data

/-- Elapsed-time values of one series of the final table, read back as
integers. -/
def elapsedValsOf (table : List Row) (c : String) : List Int :=
  ((table.drop 1).filter (fun r => cpuD r == c)).filterMap (fun r => readInt (timeD r))

/-- The removal rule exactly as the specification words it: the
series-identifier field is the header token `CPU` and the time field is
not the sentinel `time` (no stripping, no length guard). -/
def specSpurious (line : Row) : Prop :=
  cpuD line = "CPU" ∧ timeD line ≠ "time"

instance (line : Row) : Decidable (specSpurious line) := by
  unfold specSpurious; infer_instance

/-! Field-access lemmas. -/

theorem timeD_cons (x : String) (l : List String) : timeD (x :: l) = x := by
  simp [timeD]

theorem cpuD_cons_drop (x : String) (r : Row) : cpuD (x :: r.drop 1) = cpuD r := by
  cases r with
  | nil => rfl
  | cons a r2 =>
    cases r2 with
    | nil => rfl
    | cons b r3 => rfl

theorem cpuD_rewriteRow (t0 : Nat) (r : Row) : cpuD (rewriteRow t0 r) = cpuD r :=
  cpuD_cons_drop _ r

theorem length_padTo (n : Nat) (r : Row) : n ≤ (padTo n r).length := by
  unfold padTo
  rw [List.length_append, List.length_replicate]
  omega

theorem getElem?_padTo_lt {n k : Nat} (r : Row) (h : k < n) :
    (padTo n r)[k]? = some (r[k]?.getD "") := by
  unfold padTo
  rcases Nat.lt_or_ge k r.length with hk | hk
  · rw [List.getElem?_append_left hk, List.getElem?_eq_getElem hk]
    rfl
  · rw [List.getElem?_append_right hk, List.getElem?_replicate,
      if_pos (by omega : k - r.length < n - r.length), List.getElem?_eq_none hk]
    rfl

theorem getElem?_cornerPad_lt {n k : Nat} (r : Row) (h : k < n) :
    (cornerPad n r)[k]? = some (r[k]?.getD "") := by
  unfold cornerPad
  rw [List.getElem?_append_left (lt_of_lt_of_le h (length_padTo n r)),
    getElem?_padTo_lt r h]

theorem cpuD_padTo {n : Nat} (r : Row) (h : 1 < n) : cpuD (padTo n r) = cpuD r := by
  unfold cpuD
  rw [getElem?_padTo_lt r h]
  cases r[1]? <;> rfl

theorem cpuD_cornerPad {n : Nat} (r : Row) (h : 1 < n) : cpuD (cornerPad n r) = cpuD r := by
  unfold cpuD
  rw [getElem?_cornerPad_lt r h]
  cases r[1]? <;> rfl

theorem timeD_padTo {n : Nat} (r : Row) (h : 0 < n) : timeD (padTo n r) = timeD r := by
  unfold timeD
  rw [getElem?_padTo_lt r h]
  cases r[0]? <;> rfl

theorem timeD_cornerPad {n : Nat} (r : Row) (h : 0 < n) : timeD (cornerPad n r) = timeD r := by
  unfold timeD
  rw [getElem?_cornerPad_lt r h]
  cases r[0]? <;> rfl

/-! Raw-Parser lemmas. -/

theorem qualifies_def (raw : String) :
    qualifies raw = (!(decide ((pytrim raw).data = []) || startsWithCPU (pytrim raw).data)
      && firstIsDigit (pytrim raw)) := rfl

theorem convertLines_length (lines : List String) :
    ∀ ct, (convertLines ct lines).length = (lines.filter qualifies).length := by
  induction lines with
  | nil => intro ct; rfl
  | cons raw rest ih =>
    intro ct
    rw [List.filter_cons, qualifies_def]
    unfold convertLines
    rcases Bool.eq_false_or_eq_true
        (decide ((pytrim raw).data = []) || startsWithCPU (pytrim raw).data) with h1 | h1 <;>
      rcases Bool.eq_false_or_eq_true (firstIsDigit (pytrim raw)) with h2 | h2 <;>
      simp [h1, h2, ih]

theorem convert_to_csv_length (lines : List String) :
    (convert_to_csv lines).length = 1 + qualifyingCount lines := by
  unfold convert_to_csv qualifyingCount
  rw [List.length_cons, convertLines_length]
  omega

theorem convertLines_shape (lines : List String) :
    ∀ ct, ∀ r ∈ convertLines ct lines,
      ∃ raw ∈ lines, qualifies raw = true ∧
        ∃ x, r = x :: (pysplit (pytrim raw)).drop 1 := by
  induction lines with
  | nil => intro ct r hr; cases hr
  | cons raw rest ih =>
    intro ct r hr
    unfold convertLines at hr
    by_cases h1 : ((pytrim raw).data = [] || startsWithCPU (pytrim raw).data) = true
    · rw [if_pos h1] at hr
      obtain ⟨raw2, hraw2, hq, hx⟩ := ih ct r hr
      exact ⟨raw2, List.mem_cons_of_mem _ hraw2, hq, hx⟩
    · rw [if_neg h1] at hr
      by_cases h2 : firstIsDigit (pytrim raw) = true
      · rw [if_pos h2] at hr
        rcases List.mem_cons.1 hr with hhead | htail
        · refine ⟨raw, List.mem_cons_self _ _, ?_, ?_⟩
          · unfold qualifies
            rw [Bool.not_eq_true] at h1
            simp [h1, h2]
          · exact ⟨_, hhead⟩
        · obtain ⟨raw2, hraw2, hq, hx⟩ := ih _ r htail
          exact ⟨raw2, List.mem_cons_of_mem _ hraw2, hq, hx⟩
      · rw [if_neg h2] at hr
        obtain ⟨raw2, hraw2, hq, hx⟩ := ih ct r hr
        exact ⟨raw2, List.mem_cons_of_mem _ hraw2, hq, hx⟩

theorem convertLines_ne_nil (lines : List String) :
    ∀ ct, ∀ r ∈ convertLines ct lines, r ≠ [] := by
  intro ct r hr
  obtain ⟨_, _, _, x, hx⟩ := convertLines_shape lines ct r hr
  rw [hx]
  exact List.cons_ne_nil _ _

/-! Tabular-Normalizer lemmas. -/

theorem spurious_headerRow : spurious headerRow = false := by decide

theorem remove_cpu_rows_header (rows : List Row) :
    remove_cpu_rows (headerRow :: rows) = headerRow :: remove_cpu_rows rows := by
  unfold remove_cpu_rows
  rw [List.filter_cons, if_pos (by rw [spurious_headerRow]; rfl)]

theorem remove_cpu_rows_sublist (rows : List Row) :
    (remove_cpu_rows rows).Sublist rows :=
  List.filter_sublist rows

theorem remove_cpu_rows_idem (rows : List Row) :
    remove_cpu_rows (remove_cpu_rows rows) = remove_cpu_rows rows := by
  unfold remove_cpu_rows
  rw [List.filter_filter]
  exact List.filter_congr (fun x _ => Bool.and_self _)

theorem spurious_eq_specSpurious (r : Row)
    (h0 : pytrim (timeD r) = timeD r) (h1 : pytrim (cpuD r) = cpuD r) :
    spurious r = decide (specSpurious r) := by
  unfold spurious specSpurious
  rw [h0, h1]
  by_cases hc : cpuD r = "CPU"
  · have hl : 1 < r.length := by
      by_contra hl
      rw [Nat.not_lt] at hl
      unfold cpuD at hc
      rw [List.getElem?_eq_none hl] at hc
      exact absurd hc (by decide)
    by_cases ht : timeD r = "time"
    · simp [hc, ht, hl]
    · simp [hc, ht, hl]
  · simp [hc]

/-! `firstOccs` (dict key order) lemmas. -/

theorem firstOccs_cons (x : String) (xs : List String) :
    firstOccs (x :: xs) = x :: (firstOccs xs).filter (fun c => c ≠ x) := rfl

theorem mem_firstOccs (xs : List String) (c : String) :
    c ∈ firstOccs xs ↔ c ∈ xs := by
  induction xs with
  | nil => rfl
  | cons x rest ih =>
    rw [firstOccs_cons]
    rw [List.mem_cons, List.mem_cons]
    constructor
    · rintro (he | hm)
      · exact Or.inl he
      · exact Or.inr (ih.1 (List.mem_filter.1 hm).1)
    · rintro (he | hm)
      · exact Or.inl he
      · by_cases hx : c = x
        · exact Or.inl hx
        · refine Or.inr (List.mem_filter.2 ⟨ih.2 hm, ?_⟩)
          simp [hx]

theorem nodup_firstOccs (xs : List String) : (firstOccs xs).Nodup := by
  induction xs with
  | nil => exact List.nodup_nil
  | cons x rest ih =>
    rw [firstOccs_cons, List.nodup_cons]
    refine ⟨?_, ih.filter _⟩
    intro hm
    have := (List.mem_filter.1 hm).2
    simp at this

theorem firstOccs_sublist (xs : List String) : (firstOccs xs).Sublist xs := by
  induction xs with
  | nil => exact List.Sublist.refl _
  | cons x rest ih =>
    rw [firstOccs_cons]
    exact List.Sublist.cons₂ x ((List.filter_sublist _).trans ih)

theorem firstOccs_append_singleton (xs : List String) (c : String) :
    firstOccs (xs ++ [c]) =
      if c ∈ xs then firstOccs xs else firstOccs xs ++ [c] := by
  induction xs with
  | nil => rfl
  | cons x rest ih =>
    rw [List.cons_append, firstOccs_cons, firstOccs_cons, ih]
    by_cases hcr : c ∈ rest
    · rw [if_pos hcr, if_pos (List.mem_cons_of_mem _ hcr)]
    · rw [if_neg hcr]
      by_cases hcx : c = x
      · rw [if_pos (List.mem_cons.2 (Or.inl hcx)), List.filter_append]
        have : List.filter (fun k => k ≠ x) [c] = [] := by
          simp [hcx]
        rw [this, List.append_nil]
      · rw [if_neg (fun hm => by
            rcases List.mem_cons.1 hm with he | he
            · exact hcx he
            · exact hcr he),
          List.filter_append]
        have : List.filter (fun k => k ≠ x) [c] = [c] := by
          simp [hcx]
        rw [this, List.cons_append]

theorem firstOccs_all_append (as bs : List String)
    (ha : ∀ a ∈ as, a = "all") (hb : ∀ b ∈ bs, b ≠ "all") :
    firstOccs (as ++ bs) =
      if as = [] then firstOccs bs else "all" :: firstOccs bs := by
  induction as with
  | nil => rw [if_pos rfl]; rfl
  | cons a as2 ih =>
    rw [List.cons_append, firstOccs_cons,
      ih (fun x hx => ha x (List.mem_cons_of_mem _ hx)),
      ha a (List.mem_cons_self _ _),
      if_neg (List.cons_ne_nil "all" as2)]
    have hfb : List.filter (fun c => c ≠ "all") (firstOccs bs) = firstOccs bs := by
      rw [List.filter_eq_self]
      intro x hx
      have := hb x ((mem_firstOccs bs x).1 hx)
      simp [this]
    by_cases has2 : as2 = []
    · rw [if_pos has2, hfb]
    · rw [if_neg has2]
      have : List.filter (fun c => c ≠ "all") ("all" :: firstOccs bs) =
          List.filter (fun c => c ≠ "all") (firstOccs bs) := by
        rw [List.filter_cons]
        simp
      rw [this, hfb]

/-! `insertRow` on a bucket list in canonical form. -/

theorem insertRow_map_not_mem (f : String → Group) (cpu : String) (t : Nat) (row : Row) :
    ∀ ks : List String, cpu ∉ ks →
      insertRow cpu t row (ks.map (fun c => (c, f c))) =
        ks.map (fun c => (c, f c)) ++ [(cpu, ⟨t, [elapsedStr t t :: row.drop 1]⟩)] := by
  intro ks
  induction ks with
  | nil => intro _; rfl
  | cons k rest ih =>
    intro h
    rw [List.map_cons]
    unfold insertRow
    rw [if_neg (fun hk => h (List.mem_cons.2 (Or.inl hk.symm)))]
    rw [ih (fun hm => h (List.mem_cons_of_mem _ hm))]
    rfl

theorem insertRow_map_mem (f : String → Group) (cpu : String) (t : Nat) (row : Row) :
    ∀ ks : List String, ks.Nodup → cpu ∈ ks →
      insertRow cpu t row (ks.map (fun c => (c, f c))) =
        ks.map (fun c => (c,
          if c = cpu then
            ⟨(f c).start_time, (f c).rows ++ [elapsedStr (f c).start_time t :: row.drop 1]⟩
          else f c)) := by
  intro ks
  induction ks with
  | nil => intro _ h; cases h
  | cons k rest ih =>
    intro hnd hmem
    rw [List.map_cons, List.map_cons]
    unfold insertRow
    by_cases hk : k = cpu
    · rw [if_pos hk, if_pos hk]
      have hrest : ∀ c ∈ rest, c ≠ cpu := by
        intro c hc hcc
        exact (List.nodup_cons.1 hnd).1 (hk ▸ hcc ▸ hc)
      congr 1
      exact (List.map_congr_left (fun c hc => by rw [if_neg (hrest c hc)])).symm
    · rw [if_neg hk, if_neg hk]
      have hmem2 : cpu ∈ rest := by
        rcases List.mem_cons.1 hmem with h | h
        · exact absurd h.symm hk
        · exact h
      rw [ih (List.nodup_cons.1 hnd).2 hmem2]

/-! `refGroup` evolution under one appended row. -/

theorem cpuD_of_getElem {r : Row} {cpu : String} (h : r[1]? = some cpu) : cpuD r = cpu := by
  unfold cpuD
  rw [h]
  rfl

theorem timeD_of_getElem {r : Row} {tstr : String} (h : r[0]? = some tstr) : timeD r = tstr := by
  unfold timeD
  rw [h]
  rfl

theorem seriesOf_append_singleton (data : List Row) (r : Row) (c : String) :
    seriesOf (data ++ [r]) c =
      seriesOf data c ++ (if cpuD r = c then [r] else []) := by
  unfold seriesOf
  rw [List.filter_append]
  congr 1
  by_cases h : cpuD r = c
  · simp [h]
  · simp [h]

theorem seriesOf_ne_nil_of_mem {data : List Row} {c : String} (h : c ∈ data.map cpuD) :
    seriesOf data c ≠ [] := by
  obtain ⟨r, hr, hc⟩ := List.mem_map.1 h
  intro hnil
  have : r ∈ seriesOf data c := by
    unfold seriesOf
    rw [List.mem_filter]
    exact ⟨hr, by simp [hc]⟩
  rw [hnil] at this
  cases this

theorem seriesOf_eq_nil_of_not_mem {data : List Row} {c : String} (h : c ∉ data.map cpuD) :
    seriesOf data c = [] := by
  unfold seriesOf
  rw [List.filter_eq_nil_iff]
  intro r hr hc
  rw [beq_iff_eq] at hc
  exact h (List.mem_map.2 ⟨r, hr, hc⟩)

theorem startTimeOf_append_mem {data : List Row} {c : String} (r : Row)
    (h : c ∈ data.map cpuD) : startTimeOf (data ++ [r]) c = startTimeOf data c := by
  unfold startTimeOf
  rw [seriesOf_append_singleton]
  cases hs : seriesOf data c with
  | nil => exact absurd hs (seriesOf_ne_nil_of_mem h)
  | cons a l => rfl

theorem startTimeOf_append_other {data : List Row} {r : Row} {c : String} (h : cpuD r ≠ c) :
    startTimeOf (data ++ [r]) c = startTimeOf data c := by
  unfold startTimeOf
  rw [seriesOf_append_singleton, if_neg h, List.append_nil]

theorem refGroup_append_other {data : List Row} {r : Row} {c : String} (h : cpuD r ≠ c) :
    refGroup (data ++ [r]) c = refGroup data c := by
  unfold refGroup
  rw [startTimeOf_append_other h, seriesOf_append_singleton, if_neg h, List.append_nil]

theorem refGroup_append_mem {data : List Row} {r : Row} {c : String}
    (hmem : c ∈ data.map cpuD) (hc : cpuD r = c) :
    refGroup (data ++ [r]) c =
      ⟨startTimeOf data c,
        (refGroup data c).rows ++ [rewriteRow (startTimeOf data c) r]⟩ := by
  unfold refGroup
  rw [startTimeOf_append_mem r hmem, seriesOf_append_singleton, if_pos hc,
    List.map_append]
  rfl

theorem refGroup_append_new {data : List Row} {r : Row} {cpu : String}
    (hmem : cpu ∉ data.map cpuD) (hc : cpuD r = cpu) :
    refGroup (data ++ [r]) cpu =
      ⟨parseTimeD (timeD r), [rewriteRow (parseTimeD (timeD r)) r]⟩ := by
  unfold refGroup
  have hse : seriesOf (data ++ [r]) cpu = [r] := by
    rw [seriesOf_append_singleton, if_pos hc, seriesOf_eq_nil_of_not_mem hmem,
      List.nil_append]
  have hst : startTimeOf (data ++ [r]) cpu = parseTimeD (timeD r) := by
    unfold startTimeOf
    rw [hse]
  rw [hse, hst]
  rfl

theorem rewriteRow_eq_elapsedStr {r : Row} {tstr : String} {t : Nat}
    (h0 : r[0]? = some tstr) (ht : parseTime tstr = some t) (t0 : Nat) :
    rewriteRow t0 r = elapsedStr t0 t :: r.drop 1 := by
  unfold rewriteRow elapsedStr
  rw [timeD_of_getElem h0]
  unfold parseTimeD
  rw [ht]
  rfl

/-! Equation lemmas for the grouping loop, then its master
characterization. -/

theorem processRows_cons_err1 {r : Row} (h1 : r[1]? = none)
    (rest : List Row) (g : List (String × Group)) :
    processRows (r :: rest) g = .error () := by
  rw [processRows.eq_def]
  simp only [h1]

theorem processRows_cons_err0 {r : Row} {cpu : String} (h1 : r[1]? = some cpu)
    (h0 : r[0]? = none) (rest : List Row) (g : List (String × Group)) :
    processRows (r :: rest) g = .error () := by
  rw [processRows.eq_def]
  simp only [h1, h0]

theorem processRows_cons_errt {r : Row} {cpu tstr : String} (h1 : r[1]? = some cpu)
    (h0 : r[0]? = some tstr) (ht : parseTime tstr = none)
    (rest : List Row) (g : List (String × Group)) :
    processRows (r :: rest) g = .error () := by
  rw [processRows.eq_def]
  simp only [h1, h0, ht]

theorem processRows_cons_ok {r : Row} {cpu tstr : String} {t : Nat}
    (h1 : r[1]? = some cpu) (h0 : r[0]? = some tstr) (ht : parseTime tstr = some t)
    (rest : List Row) (g : List (String × Group)) :
    processRows (r :: rest) g = processRows rest (insertRow cpu t r g) := by
  rw [processRows.eq_def]
  simp only [h1, h0, ht]

theorem processRows_append (l1 l2 : List Row) :
    ∀ g, processRows (l1 ++ l2) g =
      (processRows l1 g).bind (fun g2 => processRows l2 g2) := by
  induction l1 with
  | nil => intro g; rfl
  | cons r rest ih =>
    intro g
    rw [List.cons_append]
    cases h1 : r[1]? with
    | none => rw [processRows_cons_err1 h1, processRows_cons_err1 h1]; rfl
    | some cpu =>
      cases h0 : r[0]? with
      | none => rw [processRows_cons_err0 h1 h0, processRows_cons_err0 h1 h0]; rfl
      | some tstr =>
        cases ht : parseTime tstr with
        | none =>
          rw [processRows_cons_errt h1 h0 ht, processRows_cons_errt h1 h0 ht]
          rfl
        | some t =>
          rw [processRows_cons_ok h1 h0 ht, processRows_cons_ok h1 h0 ht, ih]

/-- Every successful run of the grouping loop from the empty dict yields
exactly the canonical bucket list: keys in first-occurrence order, each
bucket holding the rewritten rows of its series; moreover every processed
row had both fields present and a parsable timestamp. -/
theorem processRows_ok (data : List Row) :
    ∀ g, processRows data [] = .ok g →
      g = (firstOccs (data.map cpuD)).map (fun c => (c, refGroup data c)) ∧
      ∀ r ∈ data, ∃ cpu tstr t, r[1]? = some cpu ∧ r[0]? = some tstr ∧
        parseTime tstr = some t := by
  induction data using List.reverseRecOn with
  | nil =>
    intro g hg
    refine ⟨?_, by intro r hr; cases hr⟩
    cases hg
    rfl
  | append_singleton data r ih =>
    intro g hg
    rw [processRows_append] at hg
    cases hpre : processRows data [] with
    | error e => rw [hpre] at hg; cases hg
    | ok g1 =>
      rw [hpre] at hg
      replace hg : processRows [r] g1 = .ok g := hg
      obtain ⟨hg1, hside⟩ := ih g1 hpre
      cases h1 : r[1]? with
      | none => rw [processRows_cons_err1 h1] at hg; cases hg
      | some cpu =>
        cases h0 : r[0]? with
        | none => rw [processRows_cons_err0 h1 h0] at hg; cases hg
        | some tstr =>
          cases ht : parseTime tstr with
          | none => rw [processRows_cons_errt h1 h0 ht] at hg; cases hg
          | some t =>
            have hgeq : g = insertRow cpu t r g1 := by
              rw [processRows_cons_ok h1 h0 ht] at hg
              cases hg
              rfl
            have hcpu : cpuD r = cpu := cpuD_of_getElem h1
            have hmapapp : (data ++ [r]).map cpuD = data.map cpuD ++ [cpu] := by
              rw [List.map_append, List.map_singleton, hcpu]
            constructor
            · rw [hgeq, hg1, hmapapp, firstOccs_append_singleton]
              by_cases hmem : cpu ∈ data.map cpuD
              · rw [if_pos hmem]
                have hmemf : cpu ∈ firstOccs (data.map cpuD) := (mem_firstOccs _ _).2 hmem
                rw [insertRow_map_mem _ cpu t r _ (nodup_firstOccs _) hmemf]
                apply List.map_congr_left
                intro c hcfo
                have hcdata : c ∈ data.map cpuD := (mem_firstOccs _ _).1 hcfo
                by_cases hceq : c = cpu
                · subst hceq
                  rw [if_pos rfl, refGroup_append_mem hcdata hcpu,
                    rewriteRow_eq_elapsedStr h0 ht]
                  rfl
                · rw [if_neg hceq, refGroup_append_other (fun hh => hceq (hh.symm.trans hcpu))]
              · rw [if_neg hmem]
                rw [insertRow_map_not_mem _ cpu t r _
                  (fun hmf => hmem ((mem_firstOccs _ _).1 hmf))]
                rw [List.map_append]
                congr 1
                · apply List.map_congr_left
                  intro c hcfo
                  have hcdata : c ∈ data.map cpuD := (mem_firstOccs _ _).1 hcfo
                  have hcne : cpuD r ≠ c := fun hh => hmem ((hh.symm.trans hcpu) ▸ hcdata)
                  rw [refGroup_append_other hcne]
                · rw [List.map_singleton, refGroup_append_new hmem hcpu,
                    rewriteRow_eq_elapsedStr h0 ht]
                  have : parseTimeD (timeD r) = t := by
                    rw [timeD_of_getElem h0]
                    unfold parseTimeD
                    rw [ht]
                    rfl
                  rw [this]
            · intro r2 hr2
              rcases List.mem_append.1 hr2 with hr2 | hr2
              · exact hside r2 hr2
              · rw [List.mem_singleton] at hr2
                exact ⟨cpu, tstr, t, hr2 ▸ h1, hr2 ▸ h0, ht⟩

/-! Structure of the final table emitted by `process_file`. -/

theorem refGroup_rows_cpuD {data : List Row} {c : String} :
    ∀ r ∈ (refGroup data c).rows, cpuD r = c := by
  intro r hr
  obtain ⟨r0, hr0, hre⟩ := List.mem_map.1 hr
  rw [← hre, cpuD_rewriteRow]
  have hmem := (List.mem_filter.1 hr0).2
  exact beq_iff_eq.1 hmem

theorem flatMap_if_eq {α : Type _} (c : String) (F G : String → List α) :
    ∀ ks : List String, ks.Nodup → (∀ k ∈ ks, G k = if k = c then F k else []) →
      ks.flatMap G = if c ∈ ks then F c else [] := by
  intro ks
  induction ks with
  | nil => intro _ _; simp
  | cons k rest ih =>
    intro hnd hG
    rw [List.flatMap_cons, ih hnd.of_cons (fun k2 hk2 => hG k2 (List.mem_cons_of_mem _ hk2)),
      hG k (List.mem_cons_self _ _)]
    by_cases hk : k = c
    · subst hk
      have hkr : k ∉ rest := (List.nodup_cons.1 hnd).1
      rw [if_pos rfl, if_neg hkr, if_pos (List.mem_cons_self _ _), List.append_nil]
    · rw [if_neg hk, List.nil_append]
      by_cases hcr : c ∈ rest
      · rw [if_pos hcr, if_pos (List.mem_cons_of_mem _ hcr)]
      · rw [if_neg hcr, if_neg (fun hm => by
          rcases List.mem_cons.1 hm with hm | hm
          · exact hk hm.symm
          · exact hcr hm)]

/-- The final data rows of one series: all the rows of that series'
bucket, or nothing when the series never occurred. -/
theorem final_filter {data : List Row} {g : List (String × Group)}
    (hg : processRows data [] = .ok g) (c : String) :
    (g.flatMap (fun p => p.2.rows)).filter (fun r => cpuD r == c) =
      if c ∈ data.map cpuD then (refGroup data c).rows else [] := by
  obtain ⟨hgeq, _⟩ := processRows_ok data g hg
  subst hgeq
  rw [List.filter_flatMap, List.flatMap_map]
  rw [flatMap_if_eq c (fun k => (refGroup data k).rows) _ _ (nodup_firstOccs _) ?_]
  · by_cases hc : c ∈ data.map cpuD
    · rw [if_pos hc, if_pos ((mem_firstOccs _ _).2 hc)]
    · rw [if_neg hc, if_neg (fun hm => hc ((mem_firstOccs _ _).1 hm))]
  · intro k _
    by_cases hk : k = c
    · subst hk
      rw [if_pos rfl, List.filter_eq_self.2]
      intro r hr
      rw [beq_iff_eq]
      exact refGroup_rows_cpuD r hr
    · rw [if_neg hk, List.filter_eq_nil_iff.2]
      intro r hr hcr
      rw [beq_iff_eq] at hcr
      exact hk ((refGroup_rows_cpuD r hr) ▸ hcr)

theorem seriesOf_sum_length :
    ∀ ks : List String, ∀ data : List Row, ks.Nodup →
      (∀ r ∈ data, cpuD r ∈ ks) →
      (ks.map (fun k => (seriesOf data k).length)).sum = data.length := by
  intro ks
  induction ks with
  | nil =>
    intro data _ hall
    cases data with
    | nil => rfl
    | cons r rest => cases hall r (List.mem_cons_self _ _)
  | cons k rest ih =>
    intro data hnd hall
    rw [List.map_cons, List.sum_cons]
    have hsplit := List.length_eq_length_filter_add (l := data) (fun r => cpuD r == k)
    have hrest : (rest.map (fun k2 => (seriesOf data k2).length)).sum =
        (data.filter (fun r => !(cpuD r == k))).length := by
      rw [← ih (data.filter (fun r => !(cpuD r == k))) hnd.of_cons ?_]
      · apply congrArg
        apply List.map_congr_left
        intro k2 hk2
        have hk2k : k2 ≠ k := fun he => (List.nodup_cons.1 hnd).1 (he ▸ hk2)
        unfold seriesOf
        rw [List.filter_filter]
        apply congrArg List.length
        apply List.filter_congr
        intro r _
        by_cases hr : cpuD r = k2
        · simp [hr, hk2k]
        · simp [hr]
      · intro r hr
        have hmem := List.mem_filter.1 hr
        have := hall r hmem.1
        rcases List.mem_cons.1 this with he | he
        · exfalso
          have := hmem.2
          rw [he] at this
          simp at this
        · exact he
    rw [hrest]
    unfold seriesOf
    omega

theorem flatMap_rows_length {data : List Row} {g : List (String × Group)}
    (hg : processRows data [] = .ok g) :
    (g.flatMap (fun p => p.2.rows)).length = data.length := by
  obtain ⟨hgeq, _⟩ := processRows_ok data g hg
  subst hgeq
  rw [List.length_flatMap, List.map_map]
  have hlen : ∀ k, (List.length ∘ (fun p : String × Group => p.2.rows))
      ((fun c => (c, refGroup data c)) k) = (seriesOf data k).length := by
    intro k
    show (refGroup data k).rows.length = _
    unfold refGroup
    rw [List.length_map]
  have h2 : List.map ((List.length ∘ fun p : String × Group => p.2.rows) ∘
        fun c => (c, refGroup data c)) (firstOccs (List.map cpuD data)) =
      List.map (fun k => (seriesOf data k).length) (firstOccs (List.map cpuD data)) :=
    List.map_congr_left (fun k _ => hlen k)
  rw [h2]
  exact seriesOf_sum_length (firstOccs (data.map cpuD)) data
    (nodup_firstOccs _)
    (fun r hr => (mem_firstOccs _ _).2 (List.mem_map.2 ⟨r, hr, rfl⟩))

theorem process_file_cons (h0 : String) (hrest : List String) (data : List Row) :
    process_file ((h0 :: hrest) :: data) =
      (processRows data []).map
        (fun g => ("time" :: hrest) :: g.flatMap (fun p => p.2.rows)) := rfl

theorem process_file_ok {rows t : List Row} (h : process_file rows = .ok t) :
    ∃ h0 hrest data g, rows = (h0 :: hrest) :: data ∧ processRows data [] = .ok g ∧
      t = ("time" :: hrest) :: g.flatMap (fun p => p.2.rows) := by
  cases rows with
  | nil => cases h
  | cons hdr data =>
    cases hdr with
    | nil => cases h
    | cons h0 hrest =>
      rw [process_file_cons] at h
      cases hg : processRows data [] with
      | error e =>
        rw [hg] at h
        exact absurd h (by simp [Except.map])
      | ok g =>
        rw [hg] at h
        simp only [Except.map] at h
        cases h
        exact ⟨h0, hrest, data, g, rfl, hg, rfl⟩

theorem runPipeline_eq_sort_error {lines : List String} {f : List Row}
    (hs : sort_cpu_data (remove_cpu_rows (convert_to_csv lines)) = .error f) :
    runPipeline lines = .failure f := by
  show (match sort_cpu_data (remove_cpu_rows (convert_to_csv lines)) with
    | .error f => RunResult.failure f
    | .ok s =>
      match process_file s with
      | .error _ => RunResult.failure s
      | .ok t => RunResult.success t) = .failure f
  rw [hs]

theorem runPipeline_eq_process_error {lines : List String} {s : List Row}
    (hs : sort_cpu_data (remove_cpu_rows (convert_to_csv lines)) = .ok s)
    (hp : process_file s = .error ()) :
    runPipeline lines = .failure s := by
  show (match sort_cpu_data (remove_cpu_rows (convert_to_csv lines)) with
    | .error f => RunResult.failure f
    | .ok s =>
      match process_file s with
      | .error _ => RunResult.failure s
      | .ok t => RunResult.success t) = .failure s
  rw [hs]
  show (match process_file s with
    | .error _ => RunResult.failure s
    | .ok t => RunResult.success t) = .failure s
  rw [hp]

theorem runPipeline_eq_ok {lines : List String} {s t : List Row}
    (hs : sort_cpu_data (remove_cpu_rows (convert_to_csv lines)) = .ok s)
    (hp : process_file s = .ok t) :
    runPipeline lines = .success t := by
  show (match sort_cpu_data (remove_cpu_rows (convert_to_csv lines)) with
    | .error f => RunResult.failure f
    | .ok s =>
      match process_file s with
      | .error _ => RunResult.failure s
      | .ok t => RunResult.success t) = .success t
  rw [hs]
  show (match process_file s with
    | .error _ => RunResult.failure s
    | .ok t => RunResult.success t) = .success t
  rw [hp]

theorem runPipeline_success {lines : List String} {t : List Row}
    (h : runPipeline lines = .success t) :
    ∃ s, sort_cpu_data (remove_cpu_rows (convert_to_csv lines)) = .ok s ∧
      process_file s = .ok t := by
  cases hs : sort_cpu_data (remove_cpu_rows (convert_to_csv lines)) with
  | error f =>
    rw [runPipeline_eq_sort_error hs] at h
    cases h
  | ok s =>
    cases hp : process_file s with
    | error e =>
      rw [runPipeline_eq_process_error hs hp] at h
      cases h
    | ok t2 =>
      rw [runPipeline_eq_ok hs hp] at h
      cases h
      exact ⟨s, rfl, hp⟩

theorem runPipeline_failure {lines : List String} {f : List Row}
    (h : runPipeline lines = .failure f) :
    sort_cpu_data (remove_cpu_rows (convert_to_csv lines)) = .error f ∨
      (sort_cpu_data (remove_cpu_rows (convert_to_csv lines)) = .ok f ∧
        process_file f = .error ()) := by
  cases hs : sort_cpu_data (remove_cpu_rows (convert_to_csv lines)) with
  | error f2 =>
    rw [runPipeline_eq_sort_error hs] at h
    injection h with he
    subst he
    exact Or.inl rfl
  | ok s =>
    cases hp : process_file s with
    | error e =>
      rw [runPipeline_eq_process_error hs hp] at h
      injection h with he
      subst he
      exact Or.inr ⟨rfl, hp⟩
    | ok t2 =>
      rw [runPipeline_eq_ok hs hp] at h
      cases h

theorem find?_eq_head?_filter {α : Type _} (p : α → Bool) (l : List α) :
    List.find? p l = (l.filter p).head? := by
  induction l with
  | nil => rfl
  | cons a l ih =>
    rw [List.find?_cons, List.filter_cons]
    cases hp : p a with
    | true => rw [if_pos rfl]; rfl
    | false => rw [if_neg (by simp)]; exact ih

theorem head_refGroup_zero {data : List Row} {c : String} {r : Row}
    (h : (refGroup data c).rows.head? = some r) : timeD r = "0" := by
  have hrows : (refGroup data c).rows =
      (seriesOf data c).map (rewriteRow (startTimeOf data c)) := rfl
  rw [hrows] at h
  cases hs : seriesOf data c with
  | nil => rw [hs] at h; cases h
  | cons r0 rest =>
    rw [hs, List.map_cons] at h
    have hr : r = rewriteRow (startTimeOf data c) r0 := by
      cases h
      rfl
    have hst : startTimeOf data c = parseTimeD (timeD r0) := by
      unfold startTimeOf
      rw [hs]
    rw [hr, hst]
    unfold rewriteRow
    rw [timeD_cons, sub_self]
    rfl

/-! Deterministic-Sorter structure lemmas. -/

theorem writeRows_ok {n : Nat} :
    ∀ {rows out : List Row}, writeRows n rows = .ok out →
      out = rows.map (padTo n) ∧ ∀ r ∈ rows, r.length ≤ n := by
  intro rows
  induction rows with
  | nil =>
    intro out h
    cases h
    exact ⟨rfl, by intro r hr; cases hr⟩
  | cons r rs ih =>
    intro out h
    unfold writeRows at h
    by_cases hl : r.length ≤ n
    · rw [if_pos hl] at h
      cases hw : writeRows n rs with
      | error pre => rw [hw] at h; cases h
      | ok out2 =>
        rw [hw] at h
        cases h
        obtain ⟨ho, hall⟩ := ih hw
        refine ⟨by rw [ho, List.map_cons], ?_⟩
        intro r2 hr2
        rcases List.mem_cons.1 hr2 with he | he
        · exact he ▸ hl
        · exact hall _ he
    · rw [if_neg hl] at h
      cases h

theorem writeRows_error {n : Nat} :
    ∀ {rows e : List Row}, writeRows n rows = .error e →
      ∃ pre, e = pre := by
  intro rows e _
  exact ⟨e, rfl⟩

theorem sortWrite_cons (hdr r0 : Row) (rest : List Row) :
    sortWrite hdr (r0 :: rest) =
      (if hdr.length < r0.length then
        .ok ((hdr ++ [""]) :: (r0 :: rest).map (cornerPad hdr.length))
      else
        match writeRows hdr.length (r0 :: rest) with
        | .ok out => .ok (hdr :: out)
        | .error pre => .error (hdr :: pre)) := rfl

theorem sortWrite_ok {hdr : Row} {rows s : List Row} (h : sortWrite hdr rows = .ok s) :
    (s = hdr :: rows.map (padTo hdr.length) ∧ ∀ r ∈ rows, r.length ≤ hdr.length)
      ∨ (s = (hdr ++ [""]) :: rows.map (cornerPad hdr.length) ∧
          ∃ r0, rows.head? = some r0 ∧ hdr.length < r0.length) := by
  cases rows with
  | nil => cases h
  | cons r0 rest =>
    rw [sortWrite_cons] at h
    by_cases hl : hdr.length < r0.length
    · rw [if_pos hl] at h
      cases h
      exact Or.inr ⟨rfl, r0, rfl, hl⟩
    · rw [if_neg hl] at h
      cases hw : writeRows hdr.length (r0 :: rest) with
      | error pre => rw [hw] at h; cases h
      | ok out =>
        rw [hw] at h
        cases h
        obtain ⟨ho, hall⟩ := writeRows_ok hw
        exact Or.inl ⟨by rw [ho], hall⟩

theorem sortWrite_error {hdr : Row} {rows e : List Row} (h : sortWrite hdr rows = .error e) :
    e = [] ∨ ∃ pre, e = hdr :: pre := by
  cases rows with
  | nil =>
    injection h with he
    exact Or.inl he.symm
  | cons r0 rest =>
    rw [sortWrite_cons] at h
    by_cases hl : hdr.length < r0.length
    · rw [if_pos hl] at h
      cases h
    · rw [if_neg hl] at h
      cases hw : writeRows hdr.length (r0 :: rest) with
      | error pre =>
        rw [hw] at h
        injection h with he
        exact Or.inr ⟨pre, he.symm⟩
      | ok out => rw [hw] at h; cases h

/-- Equation for `sort_cpu_data` on a header plus data. -/
theorem sort_cpu_data_cons (hdr : Row) (data0 : List Row) :
    sort_cpu_data (hdr :: data0) =
      (if data0.filter (fun r => !(r = [])) = [] then .error []
       else
         match hdr.findIdx? (· == "CPU") with
         | none => .error (hdr :: data0)
         | some i => sortWithIdx hdr data0 i) := rfl

theorem sort_ok_struct {hdr : Row} {data0 s : List Row} {i : Nat}
    (hi : hdr.findIdx? (· == "CPU") = some i)
    (h : sort_cpu_data (hdr :: data0) = .ok s) :
    (∀ r ∈ (data0.filter (fun r => !(r = []))).filter
        (fun r => !(r[i]? == some "all")), (r[i]?.bind pyint?).isSome = true) ∧
    (let sortedR := (data0.filter (fun r => !(r = []))).filter
        (fun r => r[i]? == some "all") ++
      List.insertionSort (fun a b => rowKey i a ≤ rowKey i b)
        ((data0.filter (fun r => !(r = []))).filter
          (fun r => !(r[i]? == some "all")));
     (s = hdr :: sortedR.map (padTo hdr.length) ∧
        ∀ r ∈ sortedR, r.length ≤ hdr.length)
      ∨ (s = (hdr ++ [""]) :: sortedR.map (cornerPad hdr.length) ∧
          ∃ r0, sortedR.head? = some r0 ∧ hdr.length < r0.length)) := by
  rw [sort_cpu_data_cons] at h
  by_cases hd : data0.filter (fun r => !(r = [])) = []
  · rw [if_pos hd] at h
    cases h
  · rw [if_neg hd, hi] at h
    replace h : sortWithIdx hdr data0 i = .ok s := h
    unfold sortWithIdx at h
    by_cases hall : ((data0.filter (fun r => !(r = []))).filter
        (fun r => !(r[i]? == some "all"))).all
          (fun r => (r[i]?.bind pyint?).isSome) = true
    · rw [if_pos hall] at h
      exact ⟨fun r hr => List.all_eq_true.1 hall r hr, sortWrite_ok h⟩
    · rw [if_neg hall] at h
      cases h

theorem sort_error_struct {hdr : Row} {data0 e : List Row}
    (h : sort_cpu_data (hdr :: data0) = .error e) :
    e = [] ∨ e = hdr :: data0 ∨ ∃ pre, e = hdr :: pre := by
  rw [sort_cpu_data_cons] at h
  by_cases hd : data0.filter (fun r => !(r = [])) = []
  · rw [if_pos hd] at h
    injection h with he
    exact Or.inl he.symm
  · rw [if_neg hd] at h
    cases hi : hdr.findIdx? (· == "CPU") with
    | none =>
      rw [hi] at h
      replace h : (Except.error (hdr :: data0) : Except (List Row) (List Row)) = .error e := h
      injection h with he
      exact Or.inr (Or.inl he.symm)
    | some i =>
      rw [hi] at h
      replace h : sortWithIdx hdr data0 i = .error e := h
      unfold sortWithIdx at h
      by_cases hall : ((data0.filter (fun r => !(r = []))).filter
          (fun r => !(r[i]? == some "all"))).all
            (fun r => (r[i]?.bind pyint?).isSome) = true
      · rw [if_pos hall] at h
        rcases sortWrite_error h with he | ⟨pre, he⟩
        · exact Or.inl he
        · exact Or.inr (Or.inr ⟨pre, he⟩)
      · rw [if_neg hall] at h
        injection h with he
        exact Or.inr (Or.inl he.symm)

theorem timeD_rewriteRow (t0 : Nat) (r : Row) :
    timeD (rewriteRow t0 r) =
      toString ((parseTimeD (timeD r) : Int) - (t0 : Int)) :=
  timeD_cons _ _

/-! Helper lemmas for the Deterministic-Sorter ordering claim. -/

theorem cpuD_all_of_beq {r : Row} (h : (r[1]? == some "all") = true) :
    cpuD r = "all" := by
  rw [beq_iff_eq] at h
  exact cpuD_of_getElem h

theorem cpuD_ne_all_of_not_beq {r : Row} (h : (r[1]? == some "all") = false) :
    cpuD r ≠ "all" := by
  intro hc
  unfold cpuD at hc
  cases hr : r[1]? with
  | none =>
    rw [hr] at hc
    exact absurd hc (by decide)
  | some v =>
    rw [hr] at hc
    have hv : v = "all" := hc
    rw [hr, hv] at h
    simp at h

theorem oth_field_of_guard {r : Row} {i : Nat}
    (h : (r[i]?.bind pyint?).isSome = true) :
    ∃ v, r[i]? = some v ∧ (pyint? v).isSome = true := by
  cases hr : r[i]? with
  | none =>
    rw [hr] at h
    simp at h
  | some v =>
    rw [hr] at h
    exact ⟨v, rfl, h⟩

theorem rowKey_eq_vk {r : Row} {v : String} (h : r[1]? = some v) :
    rowKey 1 r = (pyint? v).getD 0 := by
  unfold rowKey
  rw [h]
  rfl

/-- Shape of the sorted data: an aggregate block followed by a block of
numeric identifiers, non-decreasing by integer value. -/
theorem sorted_cpu_shape {D s : List Row}
    (hs : sort_cpu_data (headerRow :: D) = .ok s) :
    ∃ as bs, (s.drop 1).map cpuD = as ++ bs ∧
      (∀ a ∈ as, a = "all") ∧ (∀ b ∈ bs, b ≠ "all") ∧
      (∀ b ∈ bs, (pyint? b).isSome = true) ∧
      List.Pairwise (fun b1 b2 => (pyint? b1).getD 0 ≤ (pyint? b2).getD 0) bs := by
  have hi : headerRow.findIdx? (· == "CPU") = some 1 := by decide
  obtain ⟨hall, hstruct⟩ := sort_ok_struct hi hs
  have main : ∀ (shdr : Row) (pf : Row → Row), (∀ r, cpuD (pf r) = cpuD r) →
      s = shdr :: (((D.filter (fun r => !(r = []))).filter
          (fun r => r[1]? == some "all") ++
        List.insertionSort (fun a b => rowKey 1 a ≤ rowKey 1 b)
          ((D.filter (fun r => !(r = []))).filter
            (fun r => !(r[1]? == some "all")))).map pf) →
      ∃ as bs, (s.drop 1).map cpuD = as ++ bs ∧
        (∀ a ∈ as, a = "all") ∧ (∀ b ∈ bs, b ≠ "all") ∧
        (∀ b ∈ bs, (pyint? b).isSome = true) ∧
        List.Pairwise (fun b1 b2 => (pyint? b1).getD 0 ≤ (pyint? b2).getD 0) bs := by
    intro shdr pf hpf hseq
    refine ⟨((D.filter (fun r => !(r = []))).filter
        (fun r => r[1]? == some "all")).map cpuD,
      (List.insertionSort (fun a b => rowKey 1 a ≤ rowKey 1 b)
        ((D.filter (fun r => !(r = []))).filter
          (fun r => !(r[1]? == some "all")))).map cpuD,
      ?_, ?_, ?_, ?_, ?_⟩
    · rw [hseq]
      have hd2 : ∀ (x : Row) (l : List Row), List.drop 1 (x :: l) = l :=
        fun x l => rfl
      rw [hd2, List.map_map]
      have hcomp : cpuD ∘ pf = cpuD := funext (fun r => hpf r)
      rw [hcomp, List.map_append]
    · intro a ha
      obtain ⟨r, hr, hre⟩ := List.mem_map.1 ha
      rw [← hre]
      exact cpuD_all_of_beq (List.mem_filter.1 hr).2
    · intro b hb
      obtain ⟨r, hr, hre⟩ := List.mem_map.1 hb
      rw [← hre]
      have hro := (List.mem_filter.1 ((List.mem_insertionSort _).1 hr)).2
      exact cpuD_ne_all_of_not_beq (by
        rw [Bool.not_eq_true'] at hro
        exact hro)
    · intro b hb
      obtain ⟨r, hr, hre⟩ := List.mem_map.1 hb
      have hro := (List.mem_insertionSort _).1 hr
      obtain ⟨v, hv, hvs⟩ := oth_field_of_guard (hall r hro)
      rw [← hre, cpuD_of_getElem hv]
      exact hvs
    · have hsorted : List.Pairwise (fun a b => rowKey 1 a ≤ rowKey 1 b)
          (List.insertionSort (fun a b => rowKey 1 a ≤ rowKey 1 b)
            ((D.filter (fun r => !(r = []))).filter
              (fun r => !(r[1]? == some "all")))) := by
        haveI h1 : IsTotal Row (fun a b => rowKey 1 a ≤ rowKey 1 b) :=
          ⟨fun a b => le_total _ _⟩
        haveI h2 : IsTrans Row (fun a b => rowKey 1 a ≤ rowKey 1 b) :=
          ⟨fun a b c hab hbc => le_trans hab hbc⟩
        exact List.sorted_insertionSort _ _
      rw [List.pairwise_map]
      refine List.Pairwise.imp_of_mem ?_ hsorted
      intro r1 r2 h1m h2m hrel
      obtain ⟨v1, hv1, _⟩ :=
        oth_field_of_guard (hall r1 ((List.mem_insertionSort _).1 h1m))
      obtain ⟨v2, hv2, _⟩ :=
        oth_field_of_guard (hall r2 ((List.mem_insertionSort _).1 h2m))
      have e1 : rowKey 1 r1 = (pyint? (cpuD r1)).getD 0 := by
        rw [rowKey_eq_vk hv1, cpuD_of_getElem hv1]
      have e2 : rowKey 1 r2 = (pyint? (cpuD r2)).getD 0 := by
        rw [rowKey_eq_vk hv2, cpuD_of_getElem hv2]
      rw [← e1, ← e2]
      exact hrel
  rcases hstruct with ⟨hseq, _⟩ | ⟨hseq, _⟩
  · exact main headerRow (padTo headerRow.length)
      (fun r => cpuD_padTo r (by decide)) hseq
  · exact main (headerRow ++ [""]) (cornerPad headerRow.length)
      (fun r => cpuD_cornerPad r (by decide)) hseq

/-! Claim theorems. -/

/-- Claim C5: the Tabular Normalizer is idempotent — applying
`remove_cpu_rows` to its own output yields an identical result, for every
row sequence. -/
theorem C5_normalizer_idempotent (rows : List Row) :
    remove_cpu_rows (remove_cpu_rows rows) = remove_cpu_rows rows :=
  remove_cpu_rows_idem rows

/-- Claim C6: for rows whose first two fields carry no surrounding
whitespace (as all pipeline rows do, being whitespace-split tokens), the
Normalizer removes a row if and only if its series-identifier field is the
header token `CPU` and its time field is not the sentinel `time`; all
other rows are retained in their original order. -/
theorem C6_spurious_rule (rows : List Row)
    (htrim : ∀ r ∈ rows, pytrim (timeD r) = timeD r ∧ pytrim (cpuD r) = cpuD r) :
    remove_cpu_rows rows = rows.filter (fun r => !decide (specSpurious r)) := by
  unfold remove_cpu_rows
  apply List.filter_congr
  intro r hr
  rw [spurious_eq_specSpurious r (htrim r hr).1 (htrim r hr).2]

/-- Witness for C6 at a concrete row list containing a spurious header
repeat, the true header, a data row and a one-field row. -/
theorem C6_spurious_rule_witness :
    (∀ r ∈ ([["08:00:01", "CPU", "x"], ["time", "CPU", "x"],
        ["08:00:01", "0", "5.0"], ["x"]] : List Row),
      pytrim (timeD r) = timeD r ∧ pytrim (cpuD r) = cpuD r) ∧
    remove_cpu_rows [["08:00:01", "CPU", "x"], ["time", "CPU", "x"],
        ["08:00:01", "0", "5.0"], ["x"]] =
      ([["08:00:01", "CPU", "x"], ["time", "CPU", "x"],
        ["08:00:01", "0", "5.0"], ["x"]] : List Row).filter
        (fun r => !decide (specSpurious r)) ∧
    remove_cpu_rows [["08:00:01", "CPU", "x"], ["time", "CPU", "x"],
        ["08:00:01", "0", "5.0"], ["x"]] =
      [["time", "CPU", "x"], ["08:00:01", "0", "5.0"], ["x"]] :=
  ⟨by decide, C6_spurious_rule _ (by decide), by decide⟩

/-- Claim C9: when the input holds no qualifying data lines, the run fails
(`sys.exit(1)`) and the output path is left holding an empty file — no
table is emitted. -/
theorem C9_empty_input_fatal {lines : List String}
    (hq : qualifyingCount lines = 0) :
    runPipeline lines = .failure [] := by
  have hconv : convertLines none lines = [] :=
    List.eq_nil_of_length_eq_zero (by rw [convertLines_length]; exact hq)
  have hrm : remove_cpu_rows (convert_to_csv lines) = [headerRow] := by
    unfold convert_to_csv
    rw [hconv, remove_cpu_rows_header]
    rfl
  have hsort : sort_cpu_data (remove_cpu_rows (convert_to_csv lines)) = .error [] := by
    rw [hrm]
    decide
  exact runPipeline_eq_sort_error hsort

/-- Witness for C9 at an input of one header-noise line and one blank
line. -/
theorem C9_empty_input_fatal_witness :
    qualifyingCount ["Linux 5.15.0 (host)  01/01/25  x86_64  (8 CPU)", ""] = 0 ∧
    runPipeline ["Linux 5.15.0 (host)  01/01/25  x86_64  (8 CPU)", ""] = .failure [] :=
  ⟨by decide, C9_empty_input_fatal (by decide)⟩

/-- Counterexample to claim C3: a qualifying line with only 8 of the 12
schema tokens does not abort the run.  The whole pipeline succeeds and the
short row reaches the final table, padded with empty fields by the sorter
stage — it is passed through, not rejected. -/
theorem C3_counterexample :
    runPipeline ["08:00:01 0 1 2 3 4 5 6"] =
      .success [headerRow, ["0", "0", "1", "2", "3", "4", "5", "6", "", "", "", ""]] ∧
    (∀ f, runPipeline ["08:00:01 0 1 2 3 4 5 6"] ≠ .failure f) := by
  refine ⟨by decide, ?_⟩
  intro f hf
  have : runPipeline ["08:00:01 0 1 2 3 4 5 6"] =
      .success [headerRow, ["0", "0", "1", "2", "3", "4", "5", "6", "", "", "", ""]] := by
    decide
  rw [this] at hf
  cases hf

/-- Claim C3 as amended: the Raw Parser never rejects a qualifying line
for having too few tokens.  It is total — it emits exactly one data row
per qualifying line, whatever the token count — and each emitted row
carries the tokens of its originating line after the time field. -/
theorem C3_amended_parser_total (lines : List String) :
    (convert_to_csv lines).length = 1 + qualifyingCount lines ∧
    ∀ r ∈ convertLines none lines, ∃ raw ∈ lines, qualifies raw = true ∧
      ∃ x, r = x :: (pysplit (pytrim raw)).drop 1 :=
  ⟨convert_to_csv_length lines, convertLines_shape lines none⟩

/-- Counterexample to claim C4: a run whose grouping stage hits an
unparsable timestamp fails fatally, yet the output path is left holding
the sorter stage's intermediate table — neither a valid final table nor
nothing. -/
theorem C4_counterexample :
    runPipeline ["99:99:99 0 1 2 3 4 5 6 7 8 9 10"] =
      .failure [headerRow,
        ["99:99:99", "0", "1", "2", "3", "4", "5", "6", "7", "8", "9", "10"]] ∧
    ([headerRow,
        ["99:99:99", "0", "1", "2", "3", "4", "5", "6", "7", "8", "9", "10"]] :
      List Row) ≠ [] :=
  ⟨by decide, by decide⟩

/-- Claim C4 as amended: on a fatal error the pipeline stops, but the
output path is not guaranteed to be empty; it holds the residue of the
last write — an empty file, the Normalizer output, a header-plus-prefix
partial write, or the Sorter output when the grouping stage failed. -/
theorem C4_amended_failure_residue {lines : List String} {f : List Row}
    (h : runPipeline lines = .failure f) :
    f = [] ∨ f = remove_cpu_rows (convert_to_csv lines) ∨
      (∃ pre, f = headerRow :: pre) ∨
      (∃ s, sort_cpu_data (remove_cpu_rows (convert_to_csv lines)) = .ok s ∧
        process_file s = .error () ∧ f = s) := by
  rcases runPipeline_failure h with hs | ⟨hs, hp⟩
  · have hrm : remove_cpu_rows (convert_to_csv lines) =
        headerRow :: remove_cpu_rows (convertLines none lines) := by
      unfold convert_to_csv
      exact remove_cpu_rows_header _
    rw [hrm] at hs
    rcases sort_error_struct hs with he | he | ⟨pre, he⟩
    · exact Or.inl he
    · refine Or.inr (Or.inl ?_)
      rw [hrm]
      exact he
    · exact Or.inr (Or.inr (Or.inl ⟨pre, he⟩))
  · exact Or.inr (Or.inr (Or.inr ⟨f, hs, hp, rfl⟩))

/-- Witness for the amended C4 at the concrete bad-timestamp input. -/
theorem C4_amended_failure_residue_witness :
    runPipeline ["99:99:99 0 1 2 3 4 5 6 7 8 9 10"] =
      .failure [headerRow,
        ["99:99:99", "0", "1", "2", "3", "4", "5", "6", "7", "8", "9", "10"]] ∧
    ([headerRow,
        ["99:99:99", "0", "1", "2", "3", "4", "5", "6", "7", "8", "9", "10"]] = [] ∨
      [headerRow,
        ["99:99:99", "0", "1", "2", "3", "4", "5", "6", "7", "8", "9", "10"]] =
        remove_cpu_rows (convert_to_csv ["99:99:99 0 1 2 3 4 5 6 7 8 9 10"]) ∨
      (∃ pre, [headerRow,
        ["99:99:99", "0", "1", "2", "3", "4", "5", "6", "7", "8", "9", "10"]] =
          headerRow :: pre) ∨
      (∃ s, sort_cpu_data (remove_cpu_rows
            (convert_to_csv ["99:99:99 0 1 2 3 4 5 6 7 8 9 10"])) = .ok s ∧
        process_file s = .error () ∧
        [headerRow,
          ["99:99:99", "0", "1", "2", "3", "4", "5", "6", "7", "8", "9", "10"]] = s)) :=
  ⟨by decide, C4_amended_failure_residue (by decide)⟩


/-- Claim C1: in every successfully emitted table, the first row of each
series carries elapsed-time value `0`: the Series Grouper sets the
series' start timestamp from its first row, so that row's rewritten time
field is exactly the string `0`. -/
theorem C1_first_elapsed_zero {lines : List String} {t : List Row}
    {c : String} {r : Row}
    (h : runPipeline lines = .success t)
    (hr : List.find? (fun x => cpuD x == c) (t.drop 1) = some r) :
    timeD r = "0" := by
  obtain ⟨s, hs, hp⟩ := runPipeline_success h
  obtain ⟨h0, hrest, data, g, hrows, hg, hteq⟩ := process_file_ok hp
  subst hteq
  replace hr : List.find? (fun x => cpuD x == c)
      (g.flatMap (fun p => p.2.rows)) = some r := hr
  rw [find?_eq_head?_filter, final_filter hg c] at hr
  by_cases hc : c ∈ data.map cpuD
  · rw [if_pos hc] at hr
    exact head_refGroup_zero hr
  · rw [if_neg hc] at hr
    cases hr

/-- Witness for C1: a two-interval capture with an in-stream header
repeat; the first emitted row of series `0` has time field `0`. -/
theorem C1_first_elapsed_zero_witness :
    runPipeline
      ["08:00:01 CPU %usr %nice %sys %iowait %irq %soft %steal %guest %gnice %idle",
       "08:00:01 all 5.0 0 1.0 0 0 0 0 0 0 93.0",
       "08:00:01 1 4.0 0 1.0 0 0 0 0 0 0 94.0",
       "08:00:01 0 3.0 0 1.0 0 0 0 0 0 0 95.0",
       "",
       "08:00:02 all 6.0 0 1.0 0 0 0 0 0 0 92.0",
       "08:00:02 1 7.0 0 1.0 0 0 0 0 0 0 91.0",
       "08:00:02 0 8.0 0 1.0 0 0 0 0 0 0 90.0"] =
      .success [headerRow,
        ["0", "all", "5.0", "0", "1.0", "0", "0", "0", "0", "0", "0", "93.0"],
        ["1", "all", "6.0", "0", "1.0", "0", "0", "0", "0", "0", "0", "92.0"],
        ["0", "0", "3.0", "0", "1.0", "0", "0", "0", "0", "0", "0", "95.0"],
        ["1", "0", "8.0", "0", "1.0", "0", "0", "0", "0", "0", "0", "90.0"],
        ["0", "1", "4.0", "0", "1.0", "0", "0", "0", "0", "0", "0", "94.0"],
        ["1", "1", "7.0", "0", "1.0", "0", "0", "0", "0", "0", "0", "91.0"]] ∧
    List.find? (fun x => cpuD x == "0")
      (([headerRow,
        ["0", "all", "5.0", "0", "1.0", "0", "0", "0", "0", "0", "0", "93.0"],
        ["1", "all", "6.0", "0", "1.0", "0", "0", "0", "0", "0", "0", "92.0"],
        ["0", "0", "3.0", "0", "1.0", "0", "0", "0", "0", "0", "0", "95.0"],
        ["1", "0", "8.0", "0", "1.0", "0", "0", "0", "0", "0", "0", "90.0"],
        ["0", "1", "4.0", "0", "1.0", "0", "0", "0", "0", "0", "0", "94.0"],
        ["1", "1", "7.0", "0", "1.0", "0", "0", "0", "0", "0", "0", "91.0"]] :
          List Row).drop 1) =
      some ["0", "0", "3.0", "0", "1.0", "0", "0", "0", "0", "0", "0", "95.0"] ∧
    timeD ["0", "0", "3.0", "0", "1.0", "0", "0", "0", "0", "0", "0", "95.0"] = "0" := by
  have hA : runPipeline
      ["08:00:01 CPU %usr %nice %sys %iowait %irq %soft %steal %guest %gnice %idle",
       "08:00:01 all 5.0 0 1.0 0 0 0 0 0 0 93.0",
       "08:00:01 1 4.0 0 1.0 0 0 0 0 0 0 94.0",
       "08:00:01 0 3.0 0 1.0 0 0 0 0 0 0 95.0",
       "",
       "08:00:02 all 6.0 0 1.0 0 0 0 0 0 0 92.0",
       "08:00:02 1 7.0 0 1.0 0 0 0 0 0 0 91.0",
       "08:00:02 0 8.0 0 1.0 0 0 0 0 0 0 90.0"] =
      .success [headerRow,
        ["0", "all", "5.0", "0", "1.0", "0", "0", "0", "0", "0", "0", "93.0"],
        ["1", "all", "6.0", "0", "1.0", "0", "0", "0", "0", "0", "0", "92.0"],
        ["0", "0", "3.0", "0", "1.0", "0", "0", "0", "0", "0", "0", "95.0"],
        ["1", "0", "8.0", "0", "1.0", "0", "0", "0", "0", "0", "0", "90.0"],
        ["0", "1", "4.0", "0", "1.0", "0", "0", "0", "0", "0", "0", "94.0"],
        ["1", "1", "7.0", "0", "1.0", "0", "0", "0", "0", "0", "0", "91.0"]] := by
    decide
  have hB : List.find? (fun x => cpuD x == "0")
      (([headerRow,
        ["0", "all", "5.0", "0", "1.0", "0", "0", "0", "0", "0", "0", "93.0"],
        ["1", "all", "6.0", "0", "1.0", "0", "0", "0", "0", "0", "0", "92.0"],
        ["0", "0", "3.0", "0", "1.0", "0", "0", "0", "0", "0", "0", "95.0"],
        ["1", "0", "8.0", "0", "1.0", "0", "0", "0", "0", "0", "0", "90.0"],
        ["0", "1", "4.0", "0", "1.0", "0", "0", "0", "0", "0", "0", "94.0"],
        ["1", "1", "7.0", "0", "1.0", "0", "0", "0", "0", "0", "0", "91.0"]] :
          List Row).drop 1) =
      some ["0", "0", "3.0", "0", "1.0", "0", "0", "0", "0", "0", "0", "95.0"] := by
    decide
  exact ⟨hA, hB, C1_first_elapsed_zero hA hB⟩

/-- Claim C7: for every successful run, the number of rows in the final
table (header included) plus the number of spurious header repeats the
Normalizer removed equals one plus the number of qualifying input lines:
the Sorter and Grouper neither add nor drop data rows. -/
theorem C7_row_count {lines : List String} {t : List Row}
    (h : runPipeline lines = .success t) :
    t.length + removedCount lines = 1 + qualifyingCount lines := by
  obtain ⟨s, hs, hp⟩ := runPipeline_success h
  obtain ⟨h0, hrest, data, g, hrows, hg, hteq⟩ := process_file_ok hp
  have ht1 : t.length = 1 + data.length := by
    rw [hteq, List.length_cons, flatMap_rows_length hg]
    omega
  have hrm : remove_cpu_rows (convert_to_csv lines) =
      headerRow :: remove_cpu_rows (convertLines none lines) := by
    unfold convert_to_csv
    exact remove_cpu_rows_header _
  rw [hrm] at hs
  have hi : headerRow.findIdx? (· == "CPU") = some 1 := by decide
  obtain ⟨hall, hstruct⟩ := sort_ok_struct hi hs
  have hDne : (remove_cpu_rows (convertLines none lines)).filter
      (fun r => !(r = [])) = remove_cpu_rows (convertLines none lines) := by
    rw [List.filter_eq_self]
    intro r hr
    have hrc : r ∈ convertLines none lines :=
      (remove_cpu_rows_sublist _).subset hr
    have := convertLines_ne_nil lines none r hrc
    simp [this]
  have hdata_len : data.length =
      ((remove_cpu_rows (convertLines none lines)).filter
          (fun r => r[1]? == some "all")).length +
        ((remove_cpu_rows (convertLines none lines)).filter
          (fun r => !(r[1]? == some "all"))).length := by
    rcases hstruct with ⟨hseq, _⟩ | ⟨hseq, _⟩ <;>
    · rw [hrows] at hseq
      injection hseq with e1 e2
      rw [e2, List.length_map, List.length_append, List.length_insertionSort,
        hDne]
  have hsplit : (remove_cpu_rows (convertLines none lines)).length =
      ((remove_cpu_rows (convertLines none lines)).filter
          (fun r => r[1]? == some "all")).length +
        ((remove_cpu_rows (convertLines none lines)).filter
          (fun r => !(r[1]? == some "all"))).length :=
    List.length_eq_length_filter_add _
  have hql : (convertLines none lines).length = qualifyingCount lines :=
    convertLines_length lines none
  have hrem : (convertLines none lines).length =
      removedCount lines + (remove_cpu_rows (convertLines none lines)).length := by
    have hsp := List.length_eq_length_filter_add
      (l := convertLines none lines) spurious
    have hhd : removedCount lines =
        ((convertLines none lines).filter spurious).length := by
      unfold removedCount convert_to_csv
      rw [List.filter_cons, if_neg (by rw [spurious_headerRow]; simp)]
    have hrc : (remove_cpu_rows (convertLines none lines)).length =
        ((convertLines none lines).filter (fun x => !spurious x)).length := rfl
    omega
  omega

/-- Witness for C7: the two-interval capture with one spurious header
repeat; 7 table rows plus 1 removed equals 1 plus 7 qualifying lines. -/
theorem C7_row_count_witness :
    runPipeline
      ["08:00:01 CPU %usr %nice %sys %iowait %irq %soft %steal %guest %gnice %idle",
       "08:00:01 all 5.0 0 1.0 0 0 0 0 0 0 93.0",
       "08:00:01 1 4.0 0 1.0 0 0 0 0 0 0 94.0",
       "08:00:01 0 3.0 0 1.0 0 0 0 0 0 0 95.0",
       "",
       "08:00:02 all 6.0 0 1.0 0 0 0 0 0 0 92.0",
       "08:00:02 1 7.0 0 1.0 0 0 0 0 0 0 91.0",
       "08:00:02 0 8.0 0 1.0 0 0 0 0 0 0 90.0"] =
      .success [headerRow,
        ["0", "all", "5.0", "0", "1.0", "0", "0", "0", "0", "0", "0", "93.0"],
        ["1", "all", "6.0", "0", "1.0", "0", "0", "0", "0", "0", "0", "92.0"],
        ["0", "0", "3.0", "0", "1.0", "0", "0", "0", "0", "0", "0", "95.0"],
        ["1", "0", "8.0", "0", "1.0", "0", "0", "0", "0", "0", "0", "90.0"],
        ["0", "1", "4.0", "0", "1.0", "0", "0", "0", "0", "0", "0", "94.0"],
        ["1", "1", "7.0", "0", "1.0", "0", "0", "0", "0", "0", "0", "91.0"]] ∧
    ([headerRow,
        ["0", "all", "5.0", "0", "1.0", "0", "0", "0", "0", "0", "0", "93.0"],
        ["1", "all", "6.0", "0", "1.0", "0", "0", "0", "0", "0", "0", "92.0"],
        ["0", "0", "3.0", "0", "1.0", "0", "0", "0", "0", "0", "0", "95.0"],
        ["1", "0", "8.0", "0", "1.0", "0", "0", "0", "0", "0", "0", "90.0"],
        ["0", "1", "4.0", "0", "1.0", "0", "0", "0", "0", "0", "0", "94.0"],
        ["1", "1", "7.0", "0", "1.0", "0", "0", "0", "0", "0", "0", "91.0"]] :
      List Row).length +
      removedCount
        ["08:00:01 CPU %usr %nice %sys %iowait %irq %soft %steal %guest %gnice %idle",
         "08:00:01 all 5.0 0 1.0 0 0 0 0 0 0 93.0",
         "08:00:01 1 4.0 0 1.0 0 0 0 0 0 0 94.0",
         "08:00:01 0 3.0 0 1.0 0 0 0 0 0 0 95.0",
         "",
         "08:00:02 all 6.0 0 1.0 0 0 0 0 0 0 92.0",
         "08:00:02 1 7.0 0 1.0 0 0 0 0 0 0 91.0",
         "08:00:02 0 8.0 0 1.0 0 0 0 0 0 0 90.0"] =
      1 + qualifyingCount
        ["08:00:01 CPU %usr %nice %sys %iowait %irq %soft %steal %guest %gnice %idle",
         "08:00:01 all 5.0 0 1.0 0 0 0 0 0 0 93.0",
         "08:00:01 1 4.0 0 1.0 0 0 0 0 0 0 94.0",
         "08:00:01 0 3.0 0 1.0 0 0 0 0 0 0 95.0",
         "",
         "08:00:02 all 6.0 0 1.0 0 0 0 0 0 0 92.0",
         "08:00:02 1 7.0 0 1.0 0 0 0 0 0 0 91.0",
         "08:00:02 0 8.0 0 1.0 0 0 0 0 0 0 90.0"] := by
  have hA : runPipeline
      ["08:00:01 CPU %usr %nice %sys %iowait %irq %soft %steal %guest %gnice %idle",
       "08:00:01 all 5.0 0 1.0 0 0 0 0 0 0 93.0",
       "08:00:01 1 4.0 0 1.0 0 0 0 0 0 0 94.0",
       "08:00:01 0 3.0 0 1.0 0 0 0 0 0 0 95.0",
       "",
       "08:00:02 all 6.0 0 1.0 0 0 0 0 0 0 92.0",
       "08:00:02 1 7.0 0 1.0 0 0 0 0 0 0 91.0",
       "08:00:02 0 8.0 0 1.0 0 0 0 0 0 0 90.0"] =
      .success [headerRow,
        ["0", "all", "5.0", "0", "1.0", "0", "0", "0", "0", "0", "0", "93.0"],
        ["1", "all", "6.0", "0", "1.0", "0", "0", "0", "0", "0", "0", "92.0"],
        ["0", "0", "3.0", "0", "1.0", "0", "0", "0", "0", "0", "0", "95.0"],
        ["1", "0", "8.0", "0", "1.0", "0", "0", "0", "0", "0", "0", "90.0"],
        ["0", "1", "4.0", "0", "1.0", "0", "0", "0", "0", "0", "0", "94.0"],
        ["1", "1", "7.0", "0", "1.0", "0", "0", "0", "0", "0", "0", "91.0"]] := by
    decide
  exact ⟨hA, C7_row_count hA⟩

/-- Counterexample to claim C8: timestamps running backwards within a
series (as across a midnight wrap) make the elapsed values decrease: the
series `0` below gets elapsed values `0` then `-1`. -/
theorem C8_counterexample :
    runPipeline
      ["08:00:02 0 1 2 3 4 5 6 7 8 9 10",
       "08:00:01 0 1 2 3 4 5 6 7 8 9 10"] =
      .success [headerRow,
        ["0", "0", "1", "2", "3", "4", "5", "6", "7", "8", "9", "10"],
        ["-1", "0", "1", "2", "3", "4", "5", "6", "7", "8", "9", "10"]] ∧
    elapsedValsOf [headerRow,
        ["0", "0", "1", "2", "3", "4", "5", "6", "7", "8", "9", "10"],
        ["-1", "0", "1", "2", "3", "4", "5", "6", "7", "8", "9", "10"]] "0" =
      [0, -1] ∧
    ¬ List.Chain' (· ≤ ·) ([0, -1] : List Int) :=
  ⟨by decide, by decide,
    fun h => absurd (List.chain'_cons.1 h).1 (by decide)⟩

/-- Claim C8 as amended: provided the parsed timestamps of a series are
non-decreasing in arrival order (no midnight wrap), the emitted
elapsed-time values of that series are the string renderings of a
non-decreasing integer sequence. -/
theorem C8_amended_elapsed_monotone {lines : List String} {s t : List Row}
    {c : String}
    (hs : sort_cpu_data (remove_cpu_rows (convert_to_csv lines)) = .ok s)
    (hp : process_file s = .ok t)
    (hmono : List.Chain' (· ≤ ·) (seriesTimes (s.drop 1) c)) :
    ∃ ds : List Int, List.Chain' (· ≤ ·) ds ∧
      ((t.drop 1).filter (fun r => cpuD r == c)).map timeD =
        ds.map (fun d => toString d) := by
  obtain ⟨h0, hrest, data, g, hrows, hg, hteq⟩ := process_file_ok hp
  have hsd : s.drop 1 = data := by
    rw [hrows]
    rfl
  subst hteq
  have hd : List.drop 1 (("time" :: hrest) ::
      g.flatMap (fun p => p.2.rows)) = g.flatMap (fun p => p.2.rows) := rfl
  rw [hd, final_filter hg c]
  rw [hsd] at hmono
  by_cases hc : c ∈ data.map cpuD
  · rw [if_pos hc]
    refine ⟨(seriesTimes data c).map
      (fun ti : Nat => ((ti : Int) - (startTimeOf data c : Int))), ?_, ?_⟩
    · refine (List.chain'_map _).2 (List.Chain'.imp ?_ hmono)
      intro a b hab
      exact sub_le_sub_right (by exact_mod_cast hab) _
    · show ((seriesOf data c).map (rewriteRow (startTimeOf data c))).map timeD =
        (((seriesOf data c).map (fun r => parseTimeD (timeD r))).map
          (fun ti : Nat => ((ti : Int) - (startTimeOf data c : Int)))).map
          (fun d => toString d)
      rw [List.map_map, List.map_map, List.map_map]
      apply List.map_congr_left
      intro r2 hr2
      show timeD (rewriteRow (startTimeOf data c) r2) =
        toString ((parseTimeD (timeD r2) : Int) - (startTimeOf data c : Int))
      exact timeD_rewriteRow _ _
  · rw [if_neg hc]
    exact ⟨[], List.chain'_nil, rfl⟩

/-- Witness for the amended C8 at the two-interval capture: series `0`
has non-decreasing timestamps and its elapsed strings render a
non-decreasing integer list. -/
theorem C8_amended_elapsed_monotone_witness :
    sort_cpu_data (remove_cpu_rows (convert_to_csv
      ["08:00:01 CPU %usr %nice %sys %iowait %irq %soft %steal %guest %gnice %idle",
       "08:00:01 all 5.0 0 1.0 0 0 0 0 0 0 93.0",
       "08:00:01 1 4.0 0 1.0 0 0 0 0 0 0 94.0",
       "08:00:01 0 3.0 0 1.0 0 0 0 0 0 0 95.0",
       "",
       "08:00:02 all 6.0 0 1.0 0 0 0 0 0 0 92.0",
       "08:00:02 1 7.0 0 1.0 0 0 0 0 0 0 91.0",
       "08:00:02 0 8.0 0 1.0 0 0 0 0 0 0 90.0"])) =
      .ok [headerRow,
        ["08:00:01", "all", "5.0", "0", "1.0", "0", "0", "0", "0", "0", "0", "93.0"],
        ["08:00:02", "all", "6.0", "0", "1.0", "0", "0", "0", "0", "0", "0", "92.0"],
        ["08:00:01", "0", "3.0", "0", "1.0", "0", "0", "0", "0", "0", "0", "95.0"],
        ["08:00:02", "0", "8.0", "0", "1.0", "0", "0", "0", "0", "0", "0", "90.0"],
        ["08:00:01", "1", "4.0", "0", "1.0", "0", "0", "0", "0", "0", "0", "94.0"],
        ["08:00:02", "1", "7.0", "0", "1.0", "0", "0", "0", "0", "0", "0", "91.0"]] ∧
    process_file [headerRow,
        ["08:00:01", "all", "5.0", "0", "1.0", "0", "0", "0", "0", "0", "0", "93.0"],
        ["08:00:02", "all", "6.0", "0", "1.0", "0", "0", "0", "0", "0", "0", "92.0"],
        ["08:00:01", "0", "3.0", "0", "1.0", "0", "0", "0", "0", "0", "0", "95.0"],
        ["08:00:02", "0", "8.0", "0", "1.0", "0", "0", "0", "0", "0", "0", "90.0"],
        ["08:00:01", "1", "4.0", "0", "1.0", "0", "0", "0", "0", "0", "0", "94.0"],
        ["08:00:02", "1", "7.0", "0", "1.0", "0", "0", "0", "0", "0", "0", "91.0"]] =
      .ok [headerRow,
        ["0", "all", "5.0", "0", "1.0", "0", "0", "0", "0", "0", "0", "93.0"],
        ["1", "all", "6.0", "0", "1.0", "0", "0", "0", "0", "0", "0", "92.0"],
        ["0", "0", "3.0", "0", "1.0", "0", "0", "0", "0", "0", "0", "95.0"],
        ["1", "0", "8.0", "0", "1.0", "0", "0", "0", "0", "0", "0", "90.0"],
        ["0", "1", "4.0", "0", "1.0", "0", "0", "0", "0", "0", "0", "94.0"],
        ["1", "1", "7.0", "0", "1.0", "0", "0", "0", "0", "0", "0", "91.0"]] ∧
    List.Chain' (· ≤ ·) (seriesTimes (([headerRow,
        ["08:00:01", "all", "5.0", "0", "1.0", "0", "0", "0", "0", "0", "0", "93.0"],
        ["08:00:02", "all", "6.0", "0", "1.0", "0", "0", "0", "0", "0", "0", "92.0"],
        ["08:00:01", "0", "3.0", "0", "1.0", "0", "0", "0", "0", "0", "0", "95.0"],
        ["08:00:02", "0", "8.0", "0", "1.0", "0", "0", "0", "0", "0", "0", "90.0"],
        ["08:00:01", "1", "4.0", "0", "1.0", "0", "0", "0", "0", "0", "0", "94.0"],
        ["08:00:02", "1", "7.0", "0", "1.0", "0", "0", "0", "0", "0", "0", "91.0"]] :
      List Row).drop 1) "0") ∧
    ∃ ds : List Int, List.Chain' (· ≤ ·) ds ∧
      ((([headerRow,
        ["0", "all", "5.0", "0", "1.0", "0", "0", "0", "0", "0", "0", "93.0"],
        ["1", "all", "6.0", "0", "1.0", "0", "0", "0", "0", "0", "0", "92.0"],
        ["0", "0", "3.0", "0", "1.0", "0", "0", "0", "0", "0", "0", "95.0"],
        ["1", "0", "8.0", "0", "1.0", "0", "0", "0", "0", "0", "0", "90.0"],
        ["0", "1", "4.0", "0", "1.0", "0", "0", "0", "0", "0", "0", "94.0"],
        ["1", "1", "7.0", "0", "1.0", "0", "0", "0", "0", "0", "0", "91.0"]] :
          List Row).drop 1).filter (fun r => cpuD r == "0")).map timeD =
        ds.map (fun d => toString d) := by
  have hA : sort_cpu_data (remove_cpu_rows (convert_to_csv
      ["08:00:01 CPU %usr %nice %sys %iowait %irq %soft %steal %guest %gnice %idle",
       "08:00:01 all 5.0 0 1.0 0 0 0 0 0 0 93.0",
       "08:00:01 1 4.0 0 1.0 0 0 0 0 0 0 94.0",
       "08:00:01 0 3.0 0 1.0 0 0 0 0 0 0 95.0",
       "",
       "08:00:02 all 6.0 0 1.0 0 0 0 0 0 0 92.0",
       "08:00:02 1 7.0 0 1.0 0 0 0 0 0 0 91.0",
       "08:00:02 0 8.0 0 1.0 0 0 0 0 0 0 90.0"])) =
      .ok [headerRow,
        ["08:00:01", "all", "5.0", "0", "1.0", "0", "0", "0", "0", "0", "0", "93.0"],
        ["08:00:02", "all", "6.0", "0", "1.0", "0", "0", "0", "0", "0", "0", "92.0"],
        ["08:00:01", "0", "3.0", "0", "1.0", "0", "0", "0", "0", "0", "0", "95.0"],
        ["08:00:02", "0", "8.0", "0", "1.0", "0", "0", "0", "0", "0", "0", "90.0"],
        ["08:00:01", "1", "4.0", "0", "1.0", "0", "0", "0", "0", "0", "0", "94.0"],
        ["08:00:02", "1", "7.0", "0", "1.0", "0", "0", "0", "0", "0", "0", "91.0"]] := by
    decide
  have hB : process_file [headerRow,
        ["08:00:01", "all", "5.0", "0", "1.0", "0", "0", "0", "0", "0", "0", "93.0"],
        ["08:00:02", "all", "6.0", "0", "1.0", "0", "0", "0", "0", "0", "0", "92.0"],
        ["08:00:01", "0", "3.0", "0", "1.0", "0", "0", "0", "0", "0", "0", "95.0"],
        ["08:00:02", "0", "8.0", "0", "1.0", "0", "0", "0", "0", "0", "0", "90.0"],
        ["08:00:01", "1", "4.0", "0", "1.0", "0", "0", "0", "0", "0", "0", "94.0"],
        ["08:00:02", "1", "7.0", "0", "1.0", "0", "0", "0", "0", "0", "0", "91.0"]] =
      .ok [headerRow,
        ["0", "all", "5.0", "0", "1.0", "0", "0", "0", "0", "0", "0", "93.0"],
        ["1", "all", "6.0", "0", "1.0", "0", "0", "0", "0", "0", "0", "92.0"],
        ["0", "0", "3.0", "0", "1.0", "0", "0", "0", "0", "0", "0", "95.0"],
        ["1", "0", "8.0", "0", "1.0", "0", "0", "0", "0", "0", "0", "90.0"],
        ["0", "1", "4.0", "0", "1.0", "0", "0", "0", "0", "0", "0", "94.0"],
        ["1", "1", "7.0", "0", "1.0", "0", "0", "0", "0", "0", "0", "91.0"]] := by
    decide
  have hC : List.Chain' (· ≤ ·) (seriesTimes (([headerRow,
        ["08:00:01", "all", "5.0", "0", "1.0", "0", "0", "0", "0", "0", "0", "93.0"],
        ["08:00:02", "all", "6.0", "0", "1.0", "0", "0", "0", "0", "0", "0", "92.0"],
        ["08:00:01", "0", "3.0", "0", "1.0", "0", "0", "0", "0", "0", "0", "95.0"],
        ["08:00:02", "0", "8.0", "0", "1.0", "0", "0", "0", "0", "0", "0", "90.0"],
        ["08:00:01", "1", "4.0", "0", "1.0", "0", "0", "0", "0", "0", "0", "94.0"],
        ["08:00:02", "1", "7.0", "0", "1.0", "0", "0", "0", "0", "0", "0", "91.0"]] :
      List Row).drop 1) "0") := by
    have he : seriesTimes (([headerRow,
        ["08:00:01", "all", "5.0", "0", "1.0", "0", "0", "0", "0", "0", "0", "93.0"],
        ["08:00:02", "all", "6.0", "0", "1.0", "0", "0", "0", "0", "0", "0", "92.0"],
        ["08:00:01", "0", "3.0", "0", "1.0", "0", "0", "0", "0", "0", "0", "95.0"],
        ["08:00:02", "0", "8.0", "0", "1.0", "0", "0", "0", "0", "0", "0", "90.0"],
        ["08:00:01", "1", "4.0", "0", "1.0", "0", "0", "0", "0", "0", "0", "94.0"],
        ["08:00:02", "1", "7.0", "0", "1.0", "0", "0", "0", "0", "0", "0", "91.0"]] :
      List Row).drop 1) "0" = [28801, 28802] := by decide
    rw [he]
    exact List.chain'_cons.2 ⟨by decide, List.chain'_singleton _⟩
  exact ⟨hA, hB, hC, C8_amended_elapsed_monotone hA hB hC⟩


/-- Claim C10: in a successful run over schema-conforming input (every
qualifying line has exactly the 12 schema tokens), every data row of the
final table keeps all fields after the time field equal to the
whitespace-split tokens of its originating line: only the time field is
ever rewritten. -/
theorem C10_fields_pass_through {lines : List String} {t : List Row}
    (h : runPipeline lines = .success t)
    (h12 : ∀ raw ∈ lines, qualifies raw = true → (pysplit (pytrim raw)).length = 12) :
    ∀ row ∈ t.drop 1, ∃ raw ∈ lines, qualifies raw = true ∧
      row.drop 1 = (pysplit (pytrim raw)).drop 1 := by
  obtain ⟨s, hs, hp⟩ := runPipeline_success h
  obtain ⟨h0, hrest, data, g, hrows, hg, hteq⟩ := process_file_ok hp
  subst hteq
  intro row hrow
  replace hrow : row ∈ g.flatMap (fun p => p.2.rows) := hrow
  rw [List.mem_flatMap] at hrow
  obtain ⟨p, hpg, hrowp⟩ := hrow
  obtain ⟨hgeq, _⟩ := processRows_ok data g hg
  subst hgeq
  obtain ⟨c, hck, hpc⟩ := List.mem_map.1 hpg
  rw [← hpc] at hrowp
  obtain ⟨r, hr, hre⟩ := List.mem_map.1 hrowp
  have hrdata : r ∈ data := (List.mem_filter.1 hr).1
  have hdropr : row.drop 1 = r.drop 1 := by
    rw [← hre]
    rfl
  have hrm : remove_cpu_rows (convert_to_csv lines) =
      headerRow :: remove_cpu_rows (convertLines none lines) := by
    unfold convert_to_csv
    exact remove_cpu_rows_header _
  rw [hrm] at hs
  have hi : headerRow.findIdx? (· == "CPU") = some 1 := by decide
  obtain ⟨hall, hstruct⟩ := sort_ok_struct hi hs
  have hDlen : ∀ r2 ∈ (remove_cpu_rows (convertLines none lines)).filter
      (fun x => !(x = [])), r2.length = 12 := by
    intro r2 hr2
    have h1 : r2 ∈ convertLines none lines :=
      (remove_cpu_rows_sublist _).subset (List.mem_filter.1 hr2).1
    obtain ⟨raw, hraw, hq, x, hx⟩ := convertLines_shape lines none r2 h1
    rw [hx, List.length_cons, List.length_drop, h12 raw hraw hq]
  have hsubR : ∀ r2 ∈ ((remove_cpu_rows (convertLines none lines)).filter
        (fun x => !(x = []))).filter (fun x => x[1]? == some "all") ++
      List.insertionSort (fun a b => rowKey 1 a ≤ rowKey 1 b)
        (((remove_cpu_rows (convertLines none lines)).filter
          (fun x => !(x = []))).filter (fun x => !(x[1]? == some "all"))),
      r2 ∈ (remove_cpu_rows (convertLines none lines)).filter
        (fun x => !(x = [])) := by
    intro r2 hr2
    rcases List.mem_append.1 hr2 with hm | hm
    · exact (List.mem_filter.1 hm).1
    · exact (List.mem_filter.1 ((List.mem_insertionSort _).1 hm)).1
  rcases hstruct with ⟨hseq, _⟩ | ⟨hseq, r0, hr0head, hr0len⟩
  · rw [hrows] at hseq
    injection hseq with e1 e2
    rw [e2] at hrdata
    obtain ⟨r2, hr2, hpe⟩ := List.mem_map.1 hrdata
    have h12r : r2.length = 12 := hDlen r2 (hsubR r2 hr2)
    have hpad : padTo headerRow.length r2 = r2 := by
      unfold padTo
      have hh : headerRow.length = 12 := rfl
      rw [hh, h12r]
      simp
    rw [hpad] at hpe
    obtain ⟨raw, hraw, hq, x, hx⟩ := convertLines_shape lines none r2
      ((remove_cpu_rows_sublist _).subset
        (List.mem_filter.1 (hsubR r2 hr2)).1)
    refine ⟨raw, hraw, hq, ?_⟩
    rw [hdropr, ← hpe, hx]
    rfl
  · exfalso
    have hr0mem := hsubR r0 (List.mem_of_mem_head? (hr0head ▸ rfl))
    have := hDlen r0 hr0mem
    have hh : headerRow.length = 12 := rfl
    omega

/-- Witness for C10 at the schema-conforming two-interval capture. -/
theorem C10_fields_pass_through_witness :
    runPipeline
      ["08:00:01 CPU %usr %nice %sys %iowait %irq %soft %steal %guest %gnice %idle",
       "08:00:01 all 5.0 0 1.0 0 0 0 0 0 0 93.0",
       "08:00:02 all 6.0 0 1.0 0 0 0 0 0 0 92.0",
       "08:00:02 0 8.0 0 1.0 0 0 0 0 0 0 90.0"] =
      .success [headerRow,
        ["0", "all", "5.0", "0", "1.0", "0", "0", "0", "0", "0", "0", "93.0"],
        ["1", "all", "6.0", "0", "1.0", "0", "0", "0", "0", "0", "0", "92.0"],
        ["0", "0", "8.0", "0", "1.0", "0", "0", "0", "0", "0", "0", "90.0"]] ∧
    (∀ raw ∈
      ["08:00:01 CPU %usr %nice %sys %iowait %irq %soft %steal %guest %gnice %idle",
       "08:00:01 all 5.0 0 1.0 0 0 0 0 0 0 93.0",
       "08:00:02 all 6.0 0 1.0 0 0 0 0 0 0 92.0",
       "08:00:02 0 8.0 0 1.0 0 0 0 0 0 0 90.0"],
      qualifies raw = true → (pysplit (pytrim raw)).length = 12) ∧
    ∀ row ∈ ([headerRow,
        ["0", "all", "5.0", "0", "1.0", "0", "0", "0", "0", "0", "0", "93.0"],
        ["1", "all", "6.0", "0", "1.0", "0", "0", "0", "0", "0", "0", "92.0"],
        ["0", "0", "8.0", "0", "1.0", "0", "0", "0", "0", "0", "0", "90.0"]] :
          List Row).drop 1,
      ∃ raw ∈
        ["08:00:01 CPU %usr %nice %sys %iowait %irq %soft %steal %guest %gnice %idle",
         "08:00:01 all 5.0 0 1.0 0 0 0 0 0 0 93.0",
         "08:00:02 all 6.0 0 1.0 0 0 0 0 0 0 92.0",
         "08:00:02 0 8.0 0 1.0 0 0 0 0 0 0 90.0"],
        qualifies raw = true ∧
        row.drop 1 = (pysplit (pytrim raw)).drop 1 := by
  have hA : runPipeline
      ["08:00:01 CPU %usr %nice %sys %iowait %irq %soft %steal %guest %gnice %idle",
       "08:00:01 all 5.0 0 1.0 0 0 0 0 0 0 93.0",
       "08:00:02 all 6.0 0 1.0 0 0 0 0 0 0 92.0",
       "08:00:02 0 8.0 0 1.0 0 0 0 0 0 0 90.0"] =
      .success [headerRow,
        ["0", "all", "5.0", "0", "1.0", "0", "0", "0", "0", "0", "0", "93.0"],
        ["1", "all", "6.0", "0", "1.0", "0", "0", "0", "0", "0", "0", "92.0"],
        ["0", "0", "8.0", "0", "1.0", "0", "0", "0", "0", "0", "0", "90.0"]] := by
    decide
  have hB : ∀ raw ∈
      ["08:00:01 CPU %usr %nice %sys %iowait %irq %soft %steal %guest %gnice %idle",
       "08:00:01 all 5.0 0 1.0 0 0 0 0 0 0 93.0",
       "08:00:02 all 6.0 0 1.0 0 0 0 0 0 0 92.0",
       "08:00:02 0 8.0 0 1.0 0 0 0 0 0 0 90.0"],
      qualifies raw = true → (pysplit (pytrim raw)).length = 12 := by
    decide
  exact ⟨hA, hB, C10_fields_pass_through hA hB⟩


/-- Counterexample to claim C2: two distinct numeric series identifiers
`0` and `00` share the integer value 0, so the emitted series order
cannot be strictly ascending by integer value. -/
theorem C2_counterexample :
    runPipeline
      ["08:00:01 0 1 2 3 4 5 6 7 8 9 10",
       "08:00:01 00 1 2 3 4 5 6 7 8 9 10"] =
      .success [headerRow,
        ["0", "0", "1", "2", "3", "4", "5", "6", "7", "8", "9", "10"],
        ["0", "00", "1", "2", "3", "4", "5", "6", "7", "8", "9", "10"]] ∧
    firstOccs ((([headerRow,
        ["0", "0", "1", "2", "3", "4", "5", "6", "7", "8", "9", "10"],
        ["0", "00", "1", "2", "3", "4", "5", "6", "7", "8", "9", "10"]] :
      List Row).drop 1).map cpuD) = ["0", "00"] ∧
    pyint? "0" = some 0 ∧ pyint? "00" = some 0 ∧
    ¬ keyLt "0" "00" ∧ ¬ keyLt "00" "0" :=
  ⟨by decide, by decide, by decide, by decide, by decide, by decide⟩

/-- Claim C2 as amended: provided distinct numeric series identifiers in
the sorted data have distinct integer values (the claim presupposes
strict order is possible), the final emitted sequence is: the rows of the
aggregate series `all` first, then one contiguous block per numeric
series in strictly ascending integer order of the identifier, each block
keeping the grouped (sorter-output) relative order of its rows and
rewriting only the time field. -/
theorem C2_amended_sorted_order {lines : List String} {s t : List Row}
    (hs : sort_cpu_data (remove_cpu_rows (convert_to_csv lines)) = .ok s)
    (hp : process_file s = .ok t)
    (hinj : ∀ c1 ∈ (s.drop 1).map cpuD, ∀ c2 ∈ (s.drop 1).map cpuD,
      c1 ≠ "all" → c2 ≠ "all" → pyint? c1 = pyint? c2 → c1 = c2) :
    ∃ gs : List (String × List Row), ∃ ksn : List String,
      t.drop 1 = gs.flatMap Prod.snd ∧
      (gs.map Prod.fst = ksn ∨ gs.map Prod.fst = "all" :: ksn) ∧
      (∀ k ∈ ksn, k ≠ "all") ∧
      List.Pairwise keyLt ksn ∧
      (∀ p ∈ gs, p.2 ≠ [] ∧ (∀ r2 ∈ p.2, cpuD r2 = p.1) ∧
        p.2.map (List.drop 1) =
          ((s.drop 1).filter (fun r2 => cpuD r2 == p.1)).map (List.drop 1)) := by
  obtain ⟨h0, hrest, data, g, hrows, hg, hteq⟩ := process_file_ok hp
  have hsd : s.drop 1 = data := by
    rw [hrows]
    rfl
  obtain ⟨hgeq, _⟩ := processRows_ok data g hg
  have hrm : remove_cpu_rows (convert_to_csv lines) =
      headerRow :: remove_cpu_rows (convertLines none lines) := by
    unfold convert_to_csv
    exact remove_cpu_rows_header _
  rw [hrm] at hs
  obtain ⟨as, bs, hcpu, has, hbs, hbsome, hbpair⟩ := sorted_cpu_shape hs
  rw [hsd] at hcpu
  have hksshape : firstOccs (data.map cpuD) =
      if as = [] then firstOccs bs else "all" :: firstOccs bs := by
    rw [hcpu]
    exact firstOccs_all_append as bs has hbs
  refine ⟨(firstOccs (data.map cpuD)).map
      (fun c => (c, (refGroup data c).rows)), firstOccs bs, ?_, ?_, ?_, ?_, ?_⟩
  · rw [hteq, hgeq]
    have hd2 : ∀ (x : Row) (l : List Row), List.drop 1 (x :: l) = l :=
      fun x l => rfl
    rw [hd2, List.flatMap_map, List.flatMap_map]
  · have hfst : ((firstOccs (data.map cpuD)).map
        (fun c => (c, (refGroup data c).rows))).map Prod.fst =
        firstOccs (data.map cpuD) := by
      rw [List.map_map]
      have : (Prod.fst ∘ fun c => (c, (refGroup data c).rows)) = id := rfl
      rw [this, List.map_id]
    rw [hfst, hksshape]
    by_cases hase : as = []
    · rw [if_pos hase]
      exact Or.inl rfl
    · rw [if_neg hase]
      exact Or.inr rfl
  · intro k hk
    exact hbs k ((mem_firstOccs bs k).1 hk)
  · have pw1 : List.Pairwise
        (fun b1 b2 => (pyint? b1).getD 0 ≤ (pyint? b2).getD 0)
        (firstOccs bs) := List.Pairwise.sublist (firstOccs_sublist bs) hbpair
    have pwne : List.Pairwise (fun a b => a ≠ b) (firstOccs bs) :=
      nodup_firstOccs bs
    refine List.Pairwise.imp_of_mem ?_ (pw1.and pwne)
    intro k1 k2 h1m h2m hand
    have hk1 : k1 ∈ bs := (mem_firstOccs bs k1).1 h1m
    have hk2 : k2 ∈ bs := (mem_firstOccs bs k2).1 h2m
    obtain ⟨v1, hv1⟩ := Option.isSome_iff_exists.1 (hbsome k1 hk1)
    obtain ⟨v2, hv2⟩ := Option.isSome_iff_exists.1 (hbsome k2 hk2)
    have hle : v1 ≤ v2 := by
      have := hand.1
      rw [hv1, hv2] at this
      exact this
    have hmem1 : k1 ∈ (s.drop 1).map cpuD := by
      rw [hsd, hcpu]
      exact List.mem_append.2 (Or.inr hk1)
    have hmem2 : k2 ∈ (s.drop 1).map cpuD := by
      rw [hsd, hcpu]
      exact List.mem_append.2 (Or.inr hk2)
    have hlt : v1 < v2 := by
      rcases lt_or_eq_of_le hle with h | h
      · exact h
      · exfalso
        exact hand.2 (hinj k1 hmem1 k2 hmem2 (hbs k1 hk1) (hbs k2 hk2)
          (by rw [hv1, hv2, h]))
    exact ⟨v1, v2, hv1, hv2, hlt⟩
  · intro p hp2
    obtain ⟨c, hck, hpc⟩ := List.mem_map.1 hp2
    have hcd : c ∈ data.map cpuD := (mem_firstOccs _ _).1 hck
    refine ⟨?_, ?_, ?_⟩
    · rw [← hpc]
      intro hnil
      exact seriesOf_ne_nil_of_mem hcd (List.map_eq_nil_iff.1 hnil)
    · intro r2 hr2
      rw [← hpc] at hr2 ⊢
      exact refGroup_rows_cpuD r2 hr2
    · rw [← hpc, hsd]
      show ((seriesOf data c).map
          (rewriteRow (startTimeOf data c))).map (List.drop 1) =
        (data.filter (fun r2 => cpuD r2 == c)).map (List.drop 1)
      rw [List.map_map]
      apply List.map_congr_left
      intro r2 _
      rfl

/-- Witness for the amended C2 at the two-interval capture: aggregate
series first, then series 0 and 1 in strictly ascending order. -/
theorem C2_amended_sorted_order_witness :
    sort_cpu_data (remove_cpu_rows (convert_to_csv
      ["08:00:01 CPU %usr %nice %sys %iowait %irq %soft %steal %guest %gnice %idle",
       "08:00:01 all 5.0 0 1.0 0 0 0 0 0 0 93.0",
       "08:00:01 1 4.0 0 1.0 0 0 0 0 0 0 94.0",
       "08:00:01 0 3.0 0 1.0 0 0 0 0 0 0 95.0",
       "",
       "08:00:02 all 6.0 0 1.0 0 0 0 0 0 0 92.0",
       "08:00:02 1 7.0 0 1.0 0 0 0 0 0 0 91.0",
       "08:00:02 0 8.0 0 1.0 0 0 0 0 0 0 90.0"])) =
      .ok [headerRow,
        ["08:00:01", "all", "5.0", "0", "1.0", "0", "0", "0", "0", "0", "0", "93.0"],
        ["08:00:02", "all", "6.0", "0", "1.0", "0", "0", "0", "0", "0", "0", "92.0"],
        ["08:00:01", "0", "3.0", "0", "1.0", "0", "0", "0", "0", "0", "0", "95.0"],
        ["08:00:02", "0", "8.0", "0", "1.0", "0", "0", "0", "0", "0", "0", "90.0"],
        ["08:00:01", "1", "4.0", "0", "1.0", "0", "0", "0", "0", "0", "0", "94.0"],
        ["08:00:02", "1", "7.0", "0", "1.0", "0", "0", "0", "0", "0", "0", "91.0"]] ∧
    process_file [headerRow,
        ["08:00:01", "all", "5.0", "0", "1.0", "0", "0", "0", "0", "0", "0", "93.0"],
        ["08:00:02", "all", "6.0", "0", "1.0", "0", "0", "0", "0", "0", "0", "92.0"],
        ["08:00:01", "0", "3.0", "0", "1.0", "0", "0", "0", "0", "0", "0", "95.0"],
        ["08:00:02", "0", "8.0", "0", "1.0", "0", "0", "0", "0", "0", "0", "90.0"],
        ["08:00:01", "1", "4.0", "0", "1.0", "0", "0", "0", "0", "0", "0", "94.0"],
        ["08:00:02", "1", "7.0", "0", "1.0", "0", "0", "0", "0", "0", "0", "91.0"]] =
      .ok [headerRow,
        ["0", "all", "5.0", "0", "1.0", "0", "0", "0", "0", "0", "0", "93.0"],
        ["1", "all", "6.0", "0", "1.0", "0", "0", "0", "0", "0", "0", "92.0"],
        ["0", "0", "3.0", "0", "1.0", "0", "0", "0", "0", "0", "0", "95.0"],
        ["1", "0", "8.0", "0", "1.0", "0", "0", "0", "0", "0", "0", "90.0"],
        ["0", "1", "4.0", "0", "1.0", "0", "0", "0", "0", "0", "0", "94.0"],
        ["1", "1", "7.0", "0", "1.0", "0", "0", "0", "0", "0", "0", "91.0"]] ∧
    (∀ c1 ∈ (([headerRow,
        ["08:00:01", "all", "5.0", "0", "1.0", "0", "0", "0", "0", "0", "0", "93.0"],
        ["08:00:02", "all", "6.0", "0", "1.0", "0", "0", "0", "0", "0", "0", "92.0"],
        ["08:00:01", "0", "3.0", "0", "1.0", "0", "0", "0", "0", "0", "0", "95.0"],
        ["08:00:02", "0", "8.0", "0", "1.0", "0", "0", "0", "0", "0", "0", "90.0"],
        ["08:00:01", "1", "4.0", "0", "1.0", "0", "0", "0", "0", "0", "0", "94.0"],
        ["08:00:02", "1", "7.0", "0", "1.0", "0", "0", "0", "0", "0", "0", "91.0"]] :
        List Row).drop 1).map cpuD,
      ∀ c2 ∈ (([headerRow,
        ["08:00:01", "all", "5.0", "0", "1.0", "0", "0", "0", "0", "0", "0", "93.0"],
        ["08:00:02", "all", "6.0", "0", "1.0", "0", "0", "0", "0", "0", "0", "92.0"],
        ["08:00:01", "0", "3.0", "0", "1.0", "0", "0", "0", "0", "0", "0", "95.0"],
        ["08:00:02", "0", "8.0", "0", "1.0", "0", "0", "0", "0", "0", "0", "90.0"],
        ["08:00:01", "1", "4.0", "0", "1.0", "0", "0", "0", "0", "0", "0", "94.0"],
        ["08:00:02", "1", "7.0", "0", "1.0", "0", "0", "0", "0", "0", "0", "91.0"]] :
        List Row).drop 1).map cpuD,
      c1 ≠ "all" → c2 ≠ "all" → pyint? c1 = pyint? c2 → c1 = c2) ∧
    (∃ gs : List (String × List Row), ∃ ksn : List String,
      ([headerRow,
        ["0", "all", "5.0", "0", "1.0", "0", "0", "0", "0", "0", "0", "93.0"],
        ["1", "all", "6.0", "0", "1.0", "0", "0", "0", "0", "0", "0", "92.0"],
        ["0", "0", "3.0", "0", "1.0", "0", "0", "0", "0", "0", "0", "95.0"],
        ["1", "0", "8.0", "0", "1.0", "0", "0", "0", "0", "0", "0", "90.0"],
        ["0", "1", "4.0", "0", "1.0", "0", "0", "0", "0", "0", "0", "94.0"],
        ["1", "1", "7.0", "0", "1.0", "0", "0", "0", "0", "0", "0", "91.0"]] :
        List Row).drop 1 = gs.flatMap Prod.snd ∧
      (gs.map Prod.fst = ksn ∨ gs.map Prod.fst = "all" :: ksn) ∧
      (∀ k ∈ ksn, k ≠ "all") ∧
      List.Pairwise keyLt ksn ∧
      (∀ p ∈ gs, p.2 ≠ [] ∧ (∀ r2 ∈ p.2, cpuD r2 = p.1) ∧
        p.2.map (List.drop 1) =
          ((([headerRow,
        ["08:00:01", "all", "5.0", "0", "1.0", "0", "0", "0", "0", "0", "0", "93.0"],
        ["08:00:02", "all", "6.0", "0", "1.0", "0", "0", "0", "0", "0", "0", "92.0"],
        ["08:00:01", "0", "3.0", "0", "1.0", "0", "0", "0", "0", "0", "0", "95.0"],
        ["08:00:02", "0", "8.0", "0", "1.0", "0", "0", "0", "0", "0", "0", "90.0"],
        ["08:00:01", "1", "4.0", "0", "1.0", "0", "0", "0", "0", "0", "0", "94.0"],
        ["08:00:02", "1", "7.0", "0", "1.0", "0", "0", "0", "0", "0", "0", "91.0"]] :
            List Row).drop 1).filter (fun r2 => cpuD r2 == p.1)).map
            (List.drop 1))) := by
  have hA : sort_cpu_data (remove_cpu_rows (convert_to_csv
      ["08:00:01 CPU %usr %nice %sys %iowait %irq %soft %steal %guest %gnice %idle",
       "08:00:01 all 5.0 0 1.0 0 0 0 0 0 0 93.0",
       "08:00:01 1 4.0 0 1.0 0 0 0 0 0 0 94.0",
       "08:00:01 0 3.0 0 1.0 0 0 0 0 0 0 95.0",
       "",
       "08:00:02 all 6.0 0 1.0 0 0 0 0 0 0 92.0",
       "08:00:02 1 7.0 0 1.0 0 0 0 0 0 0 91.0",
       "08:00:02 0 8.0 0 1.0 0 0 0 0 0 0 90.0"])) =
      .ok [headerRow,
        ["08:00:01", "all", "5.0", "0", "1.0", "0", "0", "0", "0", "0", "0", "93.0"],
        ["08:00:02", "all", "6.0", "0", "1.0", "0", "0", "0", "0", "0", "0", "92.0"],
        ["08:00:01", "0", "3.0", "0", "1.0", "0", "0", "0", "0", "0", "0", "95.0"],
        ["08:00:02", "0", "8.0", "0", "1.0", "0", "0", "0", "0", "0", "0", "90.0"],
        ["08:00:01", "1", "4.0", "0", "1.0", "0", "0", "0", "0", "0", "0", "94.0"],
        ["08:00:02", "1", "7.0", "0", "1.0", "0", "0", "0", "0", "0", "0", "91.0"]] := by
    decide
  have hB : process_file [headerRow,
        ["08:00:01", "all", "5.0", "0", "1.0", "0", "0", "0", "0", "0", "0", "93.0"],
        ["08:00:02", "all", "6.0", "0", "1.0", "0", "0", "0", "0", "0", "0", "92.0"],
        ["08:00:01", "0", "3.0", "0", "1.0", "0", "0", "0", "0", "0", "0", "95.0"],
        ["08:00:02", "0", "8.0", "0", "1.0", "0", "0", "0", "0", "0", "0", "90.0"],
        ["08:00:01", "1", "4.0", "0", "1.0", "0", "0", "0", "0", "0", "0", "94.0"],
        ["08:00:02", "1", "7.0", "0", "1.0", "0", "0", "0", "0", "0", "0", "91.0"]] =
      .ok [headerRow,
        ["0", "all", "5.0", "0", "1.0", "0", "0", "0", "0", "0", "0", "93.0"],
        ["1", "all", "6.0", "0", "1.0", "0", "0", "0", "0", "0", "0", "92.0"],
        ["0", "0", "3.0", "0", "1.0", "0", "0", "0", "0", "0", "0", "95.0"],
        ["1", "0", "8.0", "0", "1.0", "0", "0", "0", "0", "0", "0", "90.0"],
        ["0", "1", "4.0", "0", "1.0", "0", "0", "0", "0", "0", "0", "94.0"],
        ["1", "1", "7.0", "0", "1.0", "0", "0", "0", "0", "0", "0", "91.0"]] := by
    decide
  have hC : ∀ c1 ∈ (([headerRow,
        ["08:00:01", "all", "5.0", "0", "1.0", "0", "0", "0", "0", "0", "0", "93.0"],
        ["08:00:02", "all", "6.0", "0", "1.0", "0", "0", "0", "0", "0", "0", "92.0"],
        ["08:00:01", "0", "3.0", "0", "1.0", "0", "0", "0", "0", "0", "0", "95.0"],
        ["08:00:02", "0", "8.0", "0", "1.0", "0", "0", "0", "0", "0", "0", "90.0"],
        ["08:00:01", "1", "4.0", "0", "1.0", "0", "0", "0", "0", "0", "0", "94.0"],
        ["08:00:02", "1", "7.0", "0", "1.0", "0", "0", "0", "0", "0", "0", "91.0"]] :
        List Row).drop 1).map cpuD,
      ∀ c2 ∈ (([headerRow,
        ["08:00:01", "all", "5.0", "0", "1.0", "0", "0", "0", "0", "0", "0", "93.0"],
        ["08:00:02", "all", "6.0", "0", "1.0", "0", "0", "0", "0", "0", "0", "92.0"],
        ["08:00:01", "0", "3.0", "0", "1.0", "0", "0", "0", "0", "0", "0", "95.0"],
        ["08:00:02", "0", "8.0", "0", "1.0", "0", "0", "0", "0", "0", "0", "90.0"],
        ["08:00:01", "1", "4.0", "0", "1.0", "0", "0", "0", "0", "0", "0", "94.0"],
        ["08:00:02", "1", "7.0", "0", "1.0", "0", "0", "0", "0", "0", "0", "91.0"]] :
        List Row).drop 1).map cpuD,
      c1 ≠ "all" → c2 ≠ "all" → pyint? c1 = pyint? c2 → c1 = c2 := by
    decide
  exact ⟨hA, hB, hC, C2_amended_sorted_order hA hB hC⟩

end CpuUsage
